import Mathlib

/-!
Shallow embedding of `gns3server/modules/dynamips/__init__.py` (the Dynamips
manager module) and proofs about its specification claims.

Python strings are modelled as Lean `String`/`List Char`; Python dicts as
association lists in insertion order; Python sets as duplicate-free lists;
exceptions as `Except`; the cooperative-asyncio side effects of collaborator
objects (device teardown, hypervisor calls, the OS filesystem) as explicit
oracles passed in an environment structure.  Literal braces inside modelled
Python format strings are written with the escapes \x7b and \x7d, and
apostrophes with \x27.
-/

deriving instance DecidableEq for Except

/-- Exception kinds raised by the module (aiohttp HTTP errors, the module's
`DynamipsError`, and the Python builtin exceptions its code paths can hit). -/
inductive PyError
  | httpBadRequest (msg : String)
  | httpNotFound (msg : String)
  | httpForbidden (msg : String)
  | dynamipsError (msg : String)
  | valueError (msg : String)
  | keyError (key : String)
  | indexError (msg : String)
  | attributeError (msg : String)
deriving DecidableEq

/-- Core of Python `str.format` with positional `\x7b\x7d` placeholders: walks the
format characters, substituting arguments; doubled braces are literals; a
stray single brace raises `ValueError`, exactly as CPython does. -/
def pyFormatCore : List Char → List String → Except String (List Char)
  | [], _ => .ok []
  | '\x7b' :: '\x7b' :: rest, args => (fun r => '\x7b' :: r) <$> pyFormatCore rest args
  | '\x7d' :: '\x7d' :: rest, args => (fun r => '\x7d' :: r) <$> pyFormatCore rest args
  | '\x7b' :: '\x7d' :: rest, args =>
    match args with
    | [] => .error "Replacement index out of range for positional args tuple"
    | a :: args2 => (fun r => a.data ++ r) <$> pyFormatCore rest args2
  | '\x7b' :: _, _ => .error "expected \x7d before end of string"
  | '\x7d' :: _, _ => .error "Single \x27\x7d\x27 encountered in format string"
  | c :: rest, args => (fun r => c :: r) <$> pyFormatCore rest args

/-- Python `fmt.format(*args)` on whole strings. -/
def pyFormatS (fmt : String) (args : List String) : Except String String :=
  (fun l => String.mk l) <$> pyFormatCore fmt.data args

/-- Python `raise SomeError(fmt.format(*args))`: the argument expression is
evaluated first, so a malformed format string raises `ValueError` instead of
the intended exception. -/
def pyRaise (mk : String → PyError) (fmt : String) (args : List String) : PyError :=
  match pyFormatS fmt args with
  | .ok msg => mk msg
  | .error m => .valueError m

/-- Fuelled engine for Python `str.replace`: leftmost, non-overlapping, the
replacement text is not rescanned.  Fuel `s.length` suffices for a non-empty
pattern because every step consumes at least one source character. -/
def pyReplaceFuel : Nat → List Char → List Char → List Char → List Char
  | 0, s, _, _ => s
  | _ + 1, [], _, _ => []
  | fuel + 1, c :: rest, pat, rep =>
    if pat.isPrefixOf (c :: rest) then rep ++ pyReplaceFuel fuel ((c :: rest).drop pat.length) pat rep
    else c :: pyReplaceFuel fuel rest pat rep

/-- Python `s.replace(pat, rep)` on character lists (empty pattern unused by
the source and left as the identity). -/
def pyReplaceL (s pat rep : List Char) : List Char :=
  if pat = [] then s else pyReplaceFuel s.length s pat rep

/-- Python `s.strip(cs)`: removes leading and trailing characters drawn from
`cs`. -/
def pyStrip (cs : List Char) (l : List Char) : List Char :=
  ((l.dropWhile (fun c => cs.contains c)).reverse.dropWhile (fun c => cs.contains c)).reverse

/-- Hexadecimal digit test used by `int(hex, 16)`. -/
def isHexChar (c : Char) : Bool :=
  c.isDigit || ('a' ≤ c && c ≤ 'f') || ('A' ≤ c && c ≤ 'F')

/-- CPython `uuid.UUID(device_id, version=4)` argument validation: the
`urn:`/`uuid:` markers are removed, surrounding braces stripped, dashes
dropped, and exactly 32 hexadecimal digits must remain.  `version=4` merely
overwrites the version bits and validates nothing further. -/
def pyUUIDValid (s : String) : Bool :=
  let l0 := pyReplaceL s.data ("urn:".data) []
  let l1 := pyReplaceL l0 ("uuid:".data) []
  let l2 := pyStrip ['\x7b', '\x7d'] l1
  let l3 := pyReplaceL l2 ['-'] []
  l3.length = 32 && l3.all isHexChar

/-- Python `str.startswith`. -/
def strStarts (s p : String) : Bool := p.data.isPrefixOf s.data

/-- Decimal digit character. -/
def digitChar (n : Nat) : Char := Char.ofNat (48 + n)

/-- Fuelled decimal rendering of a natural number (the embedding of Python
`str(int)` for non-negative values; fuel `n + 1` always suffices). -/
def natStrAux : Nat → Nat → List Char
  | 0, _ => []
  | fuel + 1, n => if n < 10 then [digitChar n] else natStrAux fuel (n / 10) ++ [digitChar (n % 10)]

/-- Python `str(n)` for a non-negative integer. -/
def natStr (n : Nat) : String := String.mk (natStrAux (n + 1) n)

/-- `os.path.join(a, b)` for the non-empty, relative, slash-free-tail
components this module joins (the absolute-second-argument and trailing-slash
special cases of `os.path.join` are never exercised by it). -/
def joinPath (a b : String) : String := a ++ "/" ++ b

/-- `os.path.basename` on character lists: the suffix after the last slash. -/
def basenameL (l : List Char) : List Char :=
  l.foldl (fun acc c => if c = '/' then [] else acc ++ [c]) []

/-- `os.path.basename`. -/
def basename (s : String) : String := String.mk (basenameL s.data)

/-- Membership test of a character range list, for glob character classes. -/
def classMatch (ranges : List (Char × Char)) (c : Char) : Bool :=
  ranges.any (fun r => r.1 ≤ c && c ≤ r.2)

/-- Parses a glob character class body (after the opening bracket) into ranges
plus the rest of the pattern; `none` when the class is unterminated. -/
def parseClass : List Char → Option (List (Char × Char) × List Char)
  | [] => none
  | ']' :: rest => some ([], rest)
  | a :: '-' :: b :: rest =>
    if b = ']' then some ([(a, a), ('-', '-')], rest)
    else (fun pr => ((a, b) :: pr.1, pr.2)) <$> parseClass rest
  | a :: rest => (fun pr => ((a, a) :: pr.1, pr.2)) <$> parseClass rest

/-- Fuelled `fnmatch`-style glob matching as used by `glob.glob` on a single
path component: `*` matches any run, `?` one character, `[a-b]` a class.
Every recursive call shrinks `pat.length + s.length`, so fuel
`pat.length + s.length + 1` is exact. -/
def globMatchF : Nat → List Char → List Char → Bool
  | 0, _, _ => false
  | fuel + 1, pat, s =>
    match pat, s with
    | [], [] => true
    | [], _ :: _ => false
    | '*' :: pr, [] => globMatchF fuel pr []
    | '*' :: pr, c :: s2 => globMatchF fuel pr (c :: s2) || globMatchF fuel ('*' :: pr) s2
    | '?' :: pr, _ :: s2 => globMatchF fuel pr s2
    | '[' :: pr, c :: s2 =>
      (match parseClass pr with
       | some (ranges, pr2) => classMatch ranges c && globMatchF fuel pr2 s2
       | none => c = '[' && globMatchF fuel pr s2)
    | p1 :: pr, c :: s2 => p1 = c && globMatchF fuel pr s2
    | _ :: _, [] => false

/-- Glob matching on whole strings. -/
def globMatch (pat s : String) : Bool :=
  globMatchF (pat.data.length + s.data.length + 1) pat.data s.data

/-- Whether `glob.glob(os.path.join(dir, pat))` lists the path `f`: `f` must be
a direct entry of `dir` whose base name matches the pattern. -/
def matchesGlobInDir (dir pat f : String) : Bool :=
  dir.data.isPrefixOf f.data &&
    (match f.data.drop dir.data.length with
     | '/' :: base => !(base.contains '/') && globMatch pat (String.mk base)
     | _ => false)

/-- Python dict lookup on an insertion-ordered association list. -/
def alookup {α : Type} : List (String × α) → String → Option α
  | [], _ => none
  | (k2, v) :: rest, k => if k2 = k then some v else alookup rest k

/-- Python dict assignment `d[k] = v` (updates in place, appends if fresh). -/
def aset {α : Type} : List (String × α) → String → α → List (String × α)
  | [], k, v => [(k, v)]
  | (k2, w) :: rest, k, v => if k2 = k then (k, v) :: rest else (k2, w) :: aset rest k v

/-- Python dict deletion `del d[k]`. -/
def aerase {α : Type} : List (String × α) → String → List (String × α)
  | [], _ => []
  | (k2, w) :: rest, k => if k2 = k then rest else (k2, w) :: aerase rest k

/-- Python values appearing in settings dictionaries. -/
inductive PyVal
  | str (s : String)
  | int (n : Int)
  | none
  | bool (b : Bool)
deriving DecidableEq

/-- Python dict subscript `d[k]`, raising `KeyError` when absent. -/
def dget (d : List (String × PyVal)) (k : String) : Except PyError PyVal :=
  match alookup d k with
  | some v => .ok v
  | none => .error (.keyError k)

/-- A managed Dynamips device: identifier, display name, owning project. -/
structure Device where
  id : String
  name : String
  projectId : String
deriving DecidableEq

/-- The `Dynamips` manager state: known projects (standing in for the
`ProjectManager` collaborator), the `_devices` identifier-to-device dict and
the `_ghost_files` set. -/
structure Manager where
  projects : List String
  devices : List (String × Device)
  ghostFiles : List String
deriving DecidableEq

/-- Modelled from the spec: `ProjectManager.instance().get_project(project_id)`
is an external collaborator that returns the project or fails `NotFound`
(projects are represented by their identifier). -/
def get_project (m : Manager) (pid : String) : Except PyError String :=
  if pid ∈ m.projects then .ok pid
  else .error (.httpNotFound ("Project ID " ++ pid ++ " doesn\x27t exist"))

/-- Lookups performed by `get_device`, recorded as a trace. -/
inductive LookupEv
  | projectLookup (pid : String)
  | registryLookup (did : String)
deriving DecidableEq

/-- The body of `get_device` after the optional project resolution: validate
the identifier with `UUID(device_id, version=4)` (raising through the
malformed `"Device ID} is not a valid UUID"` format string on failure), then
consult the registry, then compare owning projects. -/
def get_device_checked (m : Manager) (device_id : String) (proj : Option String) :
    List LookupEv × Except PyError Device :=
  if pyUUIDValid device_id then
    match alookup m.devices device_id with
    | none =>
      ([.registryLookup device_id],
        .error (pyRaise .httpNotFound "Device ID \x7b\x7d doesn\x27t exist" [device_id]))
    | some device =>
      match proj with
      | some pid =>
        if device.projectId ≠ pid then
          ([.registryLookup device_id],
            .error (pyRaise .httpNotFound "Project ID \x7b\x7d doesn\x27t belong to device \x7b\x7d"
              [pid, device.name]))
        else ([.registryLookup device_id], .ok device)
      | none => ([.registryLookup device_id], .ok device)
  else ([], .error (pyRaise .httpBadRequest "Device ID\x7d is not a valid UUID" [device_id]))

/-- `Dynamips.get_device(device_id, project_id=None)`.  When a truthy
`project_id` is supplied the project is resolved FIRST (before the identifier
check), exactly as in the source. -/
def get_device (m : Manager) (device_id : String) (project_id : Option String) :
    List LookupEv × Except PyError Device :=
  match project_id with
  | some pid =>
    if pid ≠ "" then
      match get_project m pid with
      | .error e => ([.projectLookup pid], .error e)
      | .ok proj =>
        let r := get_device_checked m device_id (some proj)
        (.projectLookup pid :: r.1, r.2)
    else get_device_checked m device_id none
  | none => get_device_checked m device_id none

/-- `Dynamips.create_device`: resolve the project, pick the identifier (the
fresh `uuid4()` is passed in as `freshId`), construct the device, run its
asynchronous `create()` (outcome given by the `createFails` oracle), and only
then register it.  The manager state is returned alongside the outcome. -/
def create_device (m : Manager) (name project_id : String) (device_id : Option String)
    (freshId : String) (createFails : Bool) : Manager × Except PyError Device :=
  match get_project m project_id with
  | .error e => (m, .error e)
  | .ok proj =>
    let did := match device_id with
      | none => freshId
      | some d => if d = "" then freshId else d
    let device : Device := ⟨did, name, proj⟩
    if createFails then (m, .error (.dynamipsError "device create failed"))
    else ({m with devices := aset m.devices device.id device}, .ok device)

/-- `Dynamips.delete_device`: look the device up, run its asynchronous
`delete()` (outcome given by the `deleteFails` oracle), and remove it from the
registry only after the teardown returned. -/
def delete_device (m : Manager) (device_id : String) (deleteFails : Bool) :
    Manager × Except PyError Device :=
  match (get_device m device_id none).2 with
  | .error e => (m, .error e)
  | .ok device =>
    if deleteFails then (m, .error (.dynamipsError "device delete failed"))
    else ({m with devices := aerase m.devices device.id}, .ok device)

/-- Observable actions of `project_closed`. -/
inductive PcEv
  | deviceDelete (id : String)
  | logDeleteError (id : String)
  | fileRemove (path : String)
  | logRemoveWarn (path : String)
deriving DecidableEq

/-- Environment of `project_closed`: the files present under the module
directory, and the failure oracles for `os.remove` and `device.delete()`. -/
structure PcEnv where
  fsFiles : List String
  removeFails : String → Bool
  deleteFails : String → Bool

/-- The five stale-artifact glob patterns swept by `project_closed`. -/
def dynamipsGlobPatterns : List String :=
  ["*.ghost", "*_lock", "ilt_*", "c[0-9][0-9][0-9][0-9]_*_rommon_vars",
   "c[0-9][0-9][0-9][0-9]_*_ssa"]

/-- The concatenated `glob.glob` results for the five patterns in `dir`. -/
def globFiles (env : PcEnv) (dir : String) : List String :=
  (dynamipsGlobPatterns.map (fun pat => env.fsFiles.filter (fun f => matchesGlobInDir dir pat f))).flatten

/-- One iteration of the sweep loop: discard the path from `_ghost_files`
first, then attempt `os.remove`, logging (not propagating) an `OSError`. -/
def sweepStep (env : PcEnv) (st : List String) (file : String) : List String × List PcEv :=
  let st2 := if file ∈ st then st.filter (fun g => g ≠ file) else st
  if env.removeFails file then (st2, [.fileRemove file, .logRemoveWarn file])
  else (st2, [.fileRemove file])

/-- The whole sweep loop over the globbed file list. -/
def sweepFiles (env : PcEnv) : List String → List String → List String × List PcEv
  | st, [] => (st, [])
  | st, f :: rest =>
    let r1 := sweepStep env st f
    let r2 := sweepFiles env r1.1 rest
    (r2.1, r1.2 ++ r2.2)

/-- `Dynamips.project_closed(project_dir)`: fan out one `delete()` task per
registered device (every outcome collected, failures logged, none aborting the
others), then sweep `<project_dir>/project-files/dynamips` for stale artifact
files.  Note the source iterates over ALL of `self._devices` and never removes
the entries from the dict. -/
def project_closed (env : PcEnv) (m : Manager) (project_dir : String) : Manager × List PcEv :=
  let delEvs := m.devices.foldr (fun p acc =>
    (if env.deleteFails p.2.id then [PcEv.deviceDelete p.2.id, PcEv.logDeleteError p.2.id]
     else [PcEv.deviceDelete p.2.id]) ++ acc) []
  let dir := joinPath (joinPath project_dir "project-files") "dynamips"
  let files := globFiles env dir
  let r := sweepFiles env m.ghostFiles files
  ({m with ghostFiles := r.1}, delEvs ++ r.2)

/-- The VM attributes consulted by `_set_ghost_ios`. -/
structure GVM where
  name : String
  mmap : Bool
  platform : String
  image : String
  ram : Nat
  npe : String
  ghost_file : String
  ghostStatus : Nat
  workingDir : String
deriving DecidableEq

/-- Modelled from the spec: `Router.formatted_ghost_file` lives outside this
source file; the spec only says a deterministic ghost filename is computed
from the device's image identity, and that ghost markers end in `.ghost`. -/
def formatted_ghost_file (vm : GVM) : String := basename vm.image ++ ".ghost"

/-- The individual hypervisor calls made while priming a ghost instance. -/
inductive GhostStep
  | create | setImage | setNpe | setGhostStatus1 | setGhostFile | setRam
  | start | stop | cleanDelete
deriving DecidableEq

/-- Observable actions of `_set_ghost_ios`. -/
inductive GhostEv
  | ghostCreate (name : String)
  | ghostSetImage (img : String)
  | ghostSetNpe (npe : String)
  | ghostSetGhostStatus (n : Nat)
  | ghostSetGhostFile (f : String)
  | ghostSetRam (r : Nat)
  | ghostStart
  | ghostStop
  | ghostCleanDelete
  | logWarnGhost
  | vmSetGhostStatus (n : Nat)
  | vmSetGhostFile (f : String)
deriving DecidableEq

/-- Environment of `_set_ghost_ios`: `os.path.isfile` and a per-call
`DynamipsError` oracle for the throwaway ghost router. -/
structure GhostEnv where
  isfile : String → Bool
  stepFails : GhostStep → Bool

/-- The straight-line calls issued on the ghost router before the inner
`start/stop` try block (the NPE call only on the c7200 platform). -/
def primeOuterSteps (vm : GVM) (gf : String) : List (GhostStep × GhostEv) :=
  [(.create, .ghostCreate ("ghost-" ++ gf)), (.setImage, .ghostSetImage vm.image)]
  ++ (if vm.platform = "c7200" then [(.setNpe, .ghostSetNpe vm.npe)] else [])
  ++ [(.setGhostStatus1, .ghostSetGhostStatus 1), (.setGhostFile, .ghostSetGhostFile gf),
      (.setRam, .ghostSetRam vm.ram)]

/-- Runs a straight-line call sequence, stopping at the first failing call
(the attempt itself is still recorded). -/
def runSteps (env : GhostEnv) : List (GhostStep × GhostEv) → Bool × List GhostEv
  | [] => (true, [])
  | (s, e) :: rest =>
    if env.stepFails s then (false, [e])
    else
      let r := runSteps env rest
      (r.1, e :: r.2)

/-- The priming block of `_set_ghost_ios`: build and configure a throwaway
ghost router, `start`/`stop` it inside a try whose `finally` guarantees
`clean_delete`, record the path as primed only after a successful stop, and
log (never propagate) any `DynamipsError`.  A failure before the inner try is
logged without running `clean_delete`, exactly as in the source. -/
def primeGhost (env : GhostEnv) (st : List String) (vm : GVM) (gf path : String) :
    List String × List GhostEv :=
  let outer := runSteps env (primeOuterSteps vm gf)
  if outer.1 then
    if env.stepFails .start then
      (st, outer.2 ++ [.ghostStart, .ghostCleanDelete, .logWarnGhost])
    else if env.stepFails .stop then
      (st, outer.2 ++ [.ghostStart, .ghostStop, .ghostCleanDelete, .logWarnGhost])
    else
      let st2 := if path ∈ st then st else st ++ [path]
      if env.stepFails .cleanDelete then
        (st2, outer.2 ++ [.ghostStart, .ghostStop, .ghostCleanDelete, .logWarnGhost])
      else (st2, outer.2 ++ [.ghostStart, .ghostStop, .ghostCleanDelete])
  else (st, outer.2 ++ [.logWarnGhost])

/-- `Dynamips._set_ghost_ios(vm)`: require mmap support, compute the ghost
path under the hypervisor working directory, prime it unless the in-memory
`_ghost_files` set already has it, then point the consumer VM at the ghost
file when it is not already pointing there and the (bare) filename passes
`os.path.isfile`.  The consumer-pointing setters are Router methods outside
this file; modelled from the spec as plain state updates on the VM. -/
def set_ghost_ios (env : GhostEnv) (st : List String) (vm : GVM) :
    List String × GVM × List GhostEv × Except PyError Unit :=
  if vm.mmap then
    let gf := formatted_ghost_file vm
    let path := joinPath vm.workingDir gf
    let pr := if path ∈ st then (st, ([] : List GhostEv)) else primeGhost env st vm gf path
    if vm.ghost_file ≠ gf ∧ env.isfile gf then
      (pr.1, {vm with ghostStatus := 2, ghost_file := gf},
        pr.2 ++ [.vmSetGhostStatus 2, .vmSetGhostFile gf], .ok ())
    else (pr.1, vm, pr.2, .ok ())
  else (st, vm, [], .error (.dynamipsError "mmap support is required to enable ghost IOS support"))

/-- Adapter names of `ADAPTER_MATRIX`. -/
def adapterNames : List String :=
  ["C7200-IO-2FE", "C7200-IO-FE", "C7200-IO-GE-E", "NM-16ESW", "NM-1E", "NM-1FE-TX",
   "NM-4E", "NM-4T", "PA-2FE-TX", "PA-4E", "PA-4T+", "PA-8E", "PA-8T", "PA-A1",
   "PA-FE-TX", "PA-GE", "PA-POS-OC3"]

/-- WIC names of `WIC_MATRIX`. -/
def wicNames : List String := ["WIC-1ENET", "WIC-1T", "WIC-2T"]

/-- `value in ADAPTER_MATRIX`. -/
def isAdapterVal (v : PyVal) : Bool :=
  match v with
  | .str s => s ∈ adapterNames
  | _ => false

/-- `value in WIC_MATRIX`. -/
def isWicVal (v : PyVal) : Bool :=
  match v with
  | .str s => s ∈ wicNames
  | _ => false

/-- The string payload of a `PyVal` (only applied to values known to be
strings). -/
def pyStr (v : PyVal) : String :=
  match v with
  | .str s => s
  | _ => ""

/-- Python `int(name[-1])`: last character of the key, required to be a
decimal digit (otherwise `ValueError`; `IndexError` on an empty string). -/
def lastCharDigit (s : String) : Except PyError Nat :=
  match s.data.getLast? with
  | none => .error (.indexError "string index out of range")
  | some c => if c.isDigit then .ok (c.toNat - 48) else .error (.valueError "invalid literal for int")

/-- An adapter instance: its catalog type name and its WIC bays.  Modelled
from the spec: the catalog descriptors are opaque; a freshly constructed
instance carries its type name and its (unspecified, modelled as empty) bay
list. -/
structure Adapter where
  typeName : String
  wics : List (Option String)
deriving DecidableEq

/-- `ADAPTER_MATRIX[name]()`. -/
def adapterNew (tname : String) : Adapter := ⟨tname, []⟩

/-- The VM state seen by `update_vm_settings`: plain attributes (with the set
of names for which a `set_<name>` setter exists) and the slot array. -/
structure RVM where
  attrs : List (String × PyVal)
  setters : List String
  slots : List (Option Adapter)
deriving DecidableEq

/-- Calls issued by `update_vm_settings` on the device. -/
inductive RecEv
  | setAttr (name : String) (v : PyVal)
  | slotAdd (slot : Nat) (adapter : String)
  | slotRemove (slot : Nat)
  | wicInstall (slot : Nat) (wic : String)
  | wicUninstall (slot : Nat)
deriving DecidableEq

/-- Replaces the slot array entry `i`. -/
def setSlot (vm : RVM) (i : Nat) (a : Option Adapter) : RVM :=
  {vm with slots := vm.slots.set i a}

/-- Replaces WIC bay `j` of the slot-0 adapter `ad`. -/
def setWic0 (vm : RVM) (ad : Adapter) (j : Nat) (w : Option String) : RVM :=
  {vm with slots := vm.slots.set 0 (some {ad with wics := ad.wics.set j w})}

/-- The `elif` chain of `update_vm_settings` for slot/WIC keys (reached when
the plain-attribute branch did not fire).  The bind/unbind effects of the
Router mutators live outside this file; modelled from the spec as the slot or
bay taking the named adapter/WIC. -/
def elifSlots (vm : RVM) (name : String) (value : PyVal) : Except PyError (RVM × List RecEv) :=
  if strStarts name "slot" ∧ isAdapterVal value then
    match lastCharDigit name with
    | .error e => .error e
    | .ok slot_id =>
      match vm.slots[slot_id]? with
      | none => .error (.indexError "list index out of range")
      | some (some occ) =>
        if occ.typeName ≠ pyStr value then
          .ok (setSlot (setSlot vm slot_id none) slot_id (some (adapterNew (pyStr value))),
            [.slotRemove slot_id, .slotAdd slot_id (pyStr value)])
        else
          .ok (setSlot vm slot_id (some (adapterNew (pyStr value))),
            [.slotAdd slot_id (pyStr value)])
      | some none =>
        .ok (setSlot vm slot_id (some (adapterNew (pyStr value))),
          [.slotAdd slot_id (pyStr value)])
  else if strStarts name "slot" ∧ value = PyVal.none then
    match lastCharDigit name with
    | .error e => .error e
    | .ok slot_id =>
      match vm.slots[slot_id]? with
      | none => .error (.indexError "list index out of range")
      | some (some _) => .ok (setSlot vm slot_id none, [.slotRemove slot_id])
      | some none => .ok (vm, [])
  else if strStarts name "wic" ∧ isWicVal value then
    match lastCharDigit name with
    | .error e => .error e
    | .ok wic_slot_id =>
      match vm.slots[0]? with
      | none => .error (.indexError "list index out of range")
      | some none => .error (.attributeError "NoneType object has no attribute wics")
      | some (some ad) =>
        match ad.wics[wic_slot_id]? with
        | none => .error (.indexError "list index out of range")
        | some (some w) =>
          if w ≠ pyStr value then
            .ok (setWic0 vm ad wic_slot_id (some (pyStr value)),
              [.wicUninstall wic_slot_id, .wicInstall wic_slot_id (pyStr value)])
          else
            .ok (setWic0 vm ad wic_slot_id (some (pyStr value)),
              [.wicInstall wic_slot_id (pyStr value)])
        | some none =>
          .ok (setWic0 vm ad wic_slot_id (some (pyStr value)),
            [.wicInstall wic_slot_id (pyStr value)])
  else if strStarts name "wic" ∧ value = PyVal.none then
    match lastCharDigit name with
    | .error e => .error e
    | .ok wic_slot_id =>
      match vm.slots[0]? with
      | none => .error (.indexError "list index out of range")
      | some none => .error (.attributeError "NoneType object has no attribute wics")
      | some (some ad) =>
        if ad.wics = [] then .ok (vm, [])
        else
          match ad.wics[wic_slot_id]? with
          | none => .error (.indexError "list index out of range")
          | some (some _) => .ok (setWic0 vm ad wic_slot_id none, [.wicUninstall wic_slot_id])
          | some none => .ok (vm, [])
  else .ok (vm, [])

/-- One key/value pair of `update_vm_settings`: the plain-attribute branch
fires when the attribute exists and differs (calling the type-specific setter
only if the device exposes one — no direct assignment otherwise, exactly as in
the source); otherwise control falls to the `elif` chain.  Setter effects are
modelled from the spec as assigning the requested value. -/
def stepSettings (vm : RVM) (name : String) (value : PyVal) : Except PyError (RVM × List RecEv) :=
  match alookup vm.attrs name with
  | some cur =>
    if cur ≠ value then
      if name ∈ vm.setters then
        .ok ({vm with attrs := aset vm.attrs name value}, [.setAttr name value])
      else .ok (vm, [])
    else elifSlots vm name value
  | none => elifSlots vm name value

/-- `Dynamips.update_vm_settings(vm, settings)`: iterate the requested pairs in
insertion order, each mutating step awaited before the next. -/
def update_vm_settings (vm : RVM) : List (String × PyVal) → Except PyError (RVM × List RecEv)
  | [] => .ok (vm, [])
  | (k, v) :: rest =>
    match stepSettings vm k v with
    | .error e => .error e
    | .ok r1 =>
      match update_vm_settings r1.1 rest with
      | .error e => .error e
      | .ok r2 => .ok (r2.1, r1.2 ++ r2.2)

/-- NIO variants constructible by `create_nio` (field values are carried as
the Python values read from the settings dict). -/
inductive Nio
  | udp (lport rhost rport : PyVal)
  | genericEthernet (dev : PyVal)
  | linuxEthernet (dev : PyVal)
  | tap (dev : PyVal)
  | unixSock (localFile remoteFile : PyVal)
  | vde (controlFile localFile : PyVal)
  | nullNio
deriving DecidableEq

/-- Environment of `create_nio`: the platform flag, the throwaway-UDP-socket
reachability probe, the Windows interface table, and the outcome of the final
`nio.create()` hypervisor call. -/
structure NioEnv where
  isWindows : Bool
  udpConnectFails : PyVal → PyVal → Bool
  windowsInterfaces : List (String × String)
  nioCreateFails : Bool

/-- The Windows interface-resolution loop: iterates all interfaces, keeping
the identifier of the LAST one whose name matches (as the source loop does). -/
def lastMatchId (ifs : List (String × String)) (dev : PyVal) : Option String :=
  ifs.foldl (fun acc i => if PyVal.str i.1 = dev then some i.2 else acc) none

/-- The `if/elif` dispatch of `create_nio` on `nio_settings["type"]`,
returning the local `nio` variable: `some` a constructed NIO, or `none` when
no discriminator matched (the source then calls `nio.create()` on `None`). -/
def buildNio (env : NioEnv) (d : List (String × PyVal)) (t : PyVal) :
    Except PyError (Option Nio) :=
  if t = PyVal.str "nio_udp" then
    match dget d "lport", dget d "rhost", dget d "rport" with
    | .error e, _, _ => .error e
    | _, .error e, _ => .error e
    | _, _, .error e => .error e
    | .ok lport, .ok rhost, .ok rport =>
      if env.udpConnectFails rhost rport then
        .error (.dynamipsError "Could not create an UDP connection")
      else .ok (some (.udp lport rhost rport))
  else if t = PyVal.str "nio_generic_ethernet" then
    match dget d "ethernet_device" with
    | .error e => .error e
    | .ok dev =>
      if env.isWindows then
        match lastMatchId env.windowsInterfaces dev with
        | none => .error (.dynamipsError "Could not find interface on this host")
        | some npf => .ok (some (.genericEthernet (.str npf)))
      else .ok (some (.genericEthernet dev))
  else if t = PyVal.str "nio_linux_ethernet" then
    if env.isWindows then .error (.dynamipsError "This NIO type is not supported on Windows")
    else
      match dget d "ethernet_device" with
      | .error e => .error e
      | .ok dev => .ok (some (.linuxEthernet dev))
  else if t = PyVal.str "nio_tap" then
    match dget d "tap_device" with
    | .error e => .error e
    | .ok dev => .ok (some (.tap dev))
  else if t = PyVal.str "nio_unix" then
    match dget d "local_file", dget d "remote_file" with
    | .error e, _ => .error e
    | _, .error e => .error e
    | .ok lf, .ok rf => .ok (some (.unixSock lf rf))
  else if t = PyVal.str "nio_vde" then
    match dget d "control_file", dget d "local_file" with
    | .error e, _ => .error e
    | _, .error e => .error e
    | .ok cf, .ok lf => .ok (some (.vde cf lf))
  else if t = PyVal.str "nio_null" then .ok (some .nullNio)
  else .ok none

/-- `Dynamips.create_nio(node, nio_settings)`: dispatch on the type
discriminator, then unconditionally invoke `nio.create()` — an
`AttributeError` on `None` when no branch assigned the variable. -/
def create_nio (env : NioEnv) (nio_settings : List (String × PyVal)) : Except PyError Nio :=
  match dget nio_settings "type" with
  | .error e => .error e
  | .ok t =>
    match buildNio env nio_settings t with
    | .error e => .error e
    | .ok none => .error (.attributeError "NoneType object has no attribute create")
    | .ok (some n) =>
      if env.nioCreateFails then .error (.dynamipsError "NIO create failed") else .ok n

/-- The VM attributes consulted by `create_vm_configs`: the device name
(substituted for `%h`), the numeric Dynamips identifier, the current config
pointers, and the project's per-module working directory. -/
structure CVM where
  name : String
  dynamips_id : Nat
  startup_config : String
  private_config : String
  moduleWorkdir : String
deriving DecidableEq

/-- Observable actions of `create_vm_configs`. -/
inductive CfgEv
  | fileWrite (path : String) (content : String)
  | setConfigStartup (path : String)
  | setConfigPrivate (startup : String) (priv : String)
deriving DecidableEq

/-- Environment of `create_vm_configs`: `os.makedirs` and per-path `open/write`
failure oracles. -/
structure CfgEnv where
  makedirsFails : Bool
  writeFails : String → Bool

/-- The content transformation of `_create_config`: prefix the `!` marker
line, drop carriage returns, then substitute every `%h` with the device name
(two-character `str.replace`, leftmost and non-overlapping). -/
def replacePercentH : List Char → List Char → List Char
  | [], _ => []
  | [c], _ => [c]
  | c :: d :: rest, rep =>
    if c = '%' ∧ d = 'h' then rep ++ replacePercentH rest rep
    else c :: replacePercentH (d :: rest) rep

/-- Rendered config file content. -/
def renderConfig (content : String) (name : String) : String :=
  String.mk (replacePercentH ('!' :: '\n' :: pyReplaceL content.data ['\x0d'] []) name.data)

/-- `Dynamips._create_config(vm, content, path)`: render the content, create
the parent directory, write the file, and return
`os.path.join("configs", os.path.basename(path))`; directory or write
failures raise `DynamipsError`. -/
def create_config (env : CfgEnv) (vm : CVM) (content : String) (path : String) :
    Except PyError (String × List CfgEv) :=
  let rendered := renderConfig content vm.name
  if env.makedirsFails then .error (.dynamipsError "Could not create Dynamips configs directory")
  else if env.writeFails path then .error (.dynamipsError "Could not create config file")
  else .ok (joinPath "configs" (basename path), [.fileWrite path rendered])

/-- The default config path `<module_workdir>/configs/i<id><suffix>` — the
`"i\x7b\x7d_startup-config.cfg".format(vm.dynamips_id)` of the source written
as prefix, `str(dynamips_id)`, suffix. -/
def defaultConfigPath (vm : CVM) (suffix : String) : String :=
  joinPath (joinPath vm.moduleWorkdir "configs") ("i" ++ natStr vm.dynamips_id ++ suffix)

/-- `Dynamips.create_vm_configs(vm, startup_config_content,
private_config_content)`: for each non-empty (truthy) content, write the file
and inform the device of the relative path via `set_config` (a Router setter
outside this file; modelled from the spec as updating the configuration
pointer).  The state, the performed actions and the outcome are all
returned. -/
def create_vm_configs (env : CfgEnv) (vm : CVM)
    (startup_config_content private_config_content : String) :
    CVM × List CfgEv × Except PyError Unit :=
  let startupRes :=
    if startup_config_content ≠ "" then
      match create_config env vm startup_config_content (defaultConfigPath vm "_startup-config.cfg") with
      | .error e => (vm, ([] : List CfgEv), Except.error e)
      | .ok r =>
        ({vm with startup_config := r.1}, r.2 ++ [CfgEv.setConfigStartup r.1], Except.ok ())
    else (vm, ([] : List CfgEv), Except.ok ())
  match startupRes with
  | (vm1, evs1, .error e) => (vm1, evs1, .error e)
  | (vm1, evs1, .ok _) =>
    if private_config_content ≠ "" then
      match create_config env vm1 private_config_content (defaultConfigPath vm "_private-config.cfg") with
      | .error e => (vm1, evs1, .error e)
      | .ok r =>
        ({vm1 with private_config := r.1},
          evs1 ++ r.2 ++ [CfgEv.setConfigPrivate vm1.startup_config r.1], .ok ())
    else (vm1, evs1, .ok ())

/-- Looking up the key just assigned yields the assigned value. -/
theorem alookup_aset_self {α : Type} (l : List (String × α)) (k : String) (v : α) :
    alookup (aset l k v) k = some v := by
  induction l with
  | nil => simp [aset, alookup]
  | cons p rest ih =>
    obtain ⟨k2, w⟩ := p
    by_cases h : k2 = k <;> simp [aset, alookup, h, ih]

/-- Assignment leaves other keys untouched. -/
theorem alookup_aset_ne {α : Type} (l : List (String × α)) (k k2 : String) (v : α)
    (h : k2 ≠ k) : alookup (aset l k v) k2 = alookup l k2 := by
  have h2 : k ≠ k2 := fun hh => h hh.symm
  induction l with
  | nil => simp [aset, alookup, h2]
  | cons p rest ih =>
    obtain ⟨k3, w⟩ := p
    by_cases h3 : k3 = k
    · subst h3
      simp [aset, alookup, h2]
    · simp only [aset, if_neg h3, alookup]
      by_cases h4 : k3 = k2 <;> simp [h4, ih]

/-- A key absent from a dict's key list looks up to nothing. -/
theorem alookup_not_mem {α : Type} (l : List (String × α)) (k : String)
    (h : k ∉ l.map Prod.fst) : alookup l k = none := by
  induction l with
  | nil => rfl
  | cons p rest ih =>
    obtain ⟨k2, w⟩ := p
    simp only [List.map_cons, List.mem_cons, not_or] at h
    have hne : k2 ≠ k := fun hh => h.1 hh.symm
    simp [alookup, hne, ih h.2]

/-- Deleting a key of a duplicate-free dict makes its lookup miss. -/
theorem alookup_aerase_self {α : Type} (l : List (String × α)) (k : String)
    (hnd : (l.map Prod.fst).Nodup) : alookup (aerase l k) k = none := by
  induction l with
  | nil => rfl
  | cons p rest ih =>
    obtain ⟨k2, w⟩ := p
    simp only [List.map_cons, List.nodup_cons] at hnd
    by_cases h : k2 = k
    · subst h
      simp only [aerase, if_pos rfl]
      exact alookup_not_mem rest k2 hnd.1
    · simp [aerase, alookup, h, ih hnd.2]

/-- The well-formed registry messages format successfully. -/
theorem fmt_device_missing (x : String) :
    pyRaise .httpNotFound "Device ID \x7b\x7d doesn\x27t exist" [x]
      = .httpNotFound ("Device ID " ++ x ++ " doesn\x27t exist") := rfl

/-- The project-mismatch message formats successfully. -/
theorem fmt_project_mismatch (p n : String) :
    pyRaise .httpNotFound "Project ID \x7b\x7d doesn\x27t belong to device \x7b\x7d" [p, n]
      = .httpNotFound ("Project ID " ++ p ++ " doesn\x27t belong to device " ++ n) := by
  show PyError.httpNotFound (String.mk _) = _
  apply congrArg
  apply congrArg
  simp [List.append_assoc]

/-- The malformed bad-request format string always raises `ValueError`
instead, for every argument. -/
theorem fmt_bad_uuid_raises_valueerror (x : String) :
    pyRaise .httpBadRequest "Device ID\x7d is not a valid UUID" [x]
      = .valueError "Single \x27\x7d\x27 encountered in format string" := rfl

/-- C4: evaluating `get_device` at the failing input "not-a-uuid" shows the
code raising `ValueError` — the broken `"Device ID} is not a valid UUID"`
format string blows up while building the message — instead of the designed
`HTTPBadRequest` (`InvalidArgument`); moreover, when a `project_id` is
supplied, the project lookup runs BEFORE the identifier check (an unknown
project even turns the failure into `NotFound`). -/
theorem C4_get_device_malformed_uuid_eval :
    get_device ⟨[], [], []⟩ "not-a-uuid" none
        = ([], .error (.valueError "Single \x27\x7d\x27 encountered in format string"))
      ∧ get_device ⟨["p1"], [], []⟩ "not-a-uuid" (some "p1")
        = ([.projectLookup "p1"],
           .error (.valueError "Single \x27\x7d\x27 encountered in format string"))
      ∧ get_device ⟨[], [], []⟩ "not-a-uuid" (some "missing")
        = ([.projectLookup "missing"],
           .error (.httpNotFound "Project ID missing doesn\x27t exist")) := by
  decide

/-- C1 counterexample: with two registered devices owned by different
projects, closing one project's directory still issues `delete()` on the
device owned by the other project — the source iterates all of
`self._devices` with no project filter. -/
theorem C1_project_closed_deletes_foreign_device :
    (let env : PcEnv := ⟨[], fun _ => false, fun _ => false⟩
     let m : Manager := ⟨["p1", "p2"],
       [("d1", ⟨"d1", "R1", "p1"⟩), ("d2", ⟨"d2", "R2", "p2"⟩)], []⟩
     PcEv.deviceDelete "d2" ∈ (project_closed env m "/projects/p1").2
       ∧ (alookup m.devices "d2").map Device.projectId = some "p2") := by
  decide

/-- C2 counterexample: a converged slot assignment applied a second time
still issues `slot_add_binding` — the add call is unconditional whenever the
value names a known adapter type, so the second application is NOT a no-op. -/
theorem C2_second_application_rebinds :
    (let s := [("slot1", PyVal.str "NM-1FE-TX")]
     let vm0 : RVM := ⟨[], [], [none, none]⟩
     let vm1 : RVM := ⟨[], [], [none, some ⟨"NM-1FE-TX", []⟩]⟩
     update_vm_settings vm0 s = .ok (vm1, [.slotAdd 1 "NM-1FE-TX"])
       ∧ update_vm_settings vm1 s = .ok (vm1, [.slotAdd 1 "NM-1FE-TX"])) := by
  decide

/-- C7 counterexample: a matched ghost marker whose `os.remove` fails with an
`OSError` is nevertheless gone from the in-memory ghost set after the sweep —
the source discards it from `_ghost_files` BEFORE attempting the deletion. -/
theorem C7_failed_removal_still_drops_ghost_entry :
    (let p := "/pr/project-files/dynamips/a.ghost"
     let env : PcEnv := ⟨[p], fun _ => true, fun _ => false⟩
     let m : Manager := ⟨[], [], [p]⟩
     (project_closed env m "/pr").1.ghostFiles = []
       ∧ PcEv.logRemoveWarn p ∈ (project_closed env m "/pr").2) := by
  decide

/-- The seven `type` discriminators handled by `create_nio`. -/
def nioTypeNames : List PyVal :=
  [.str "nio_udp", .str "nio_generic_ethernet", .str "nio_linux_ethernet",
   .str "nio_tap", .str "nio_unix", .str "nio_vde", .str "nio_null"]

/-- C10: for every settings dict whose `type` is none of the seven handled
discriminators, `create_nio` leaves the local `nio` variable unassigned and
then calls `nio.create()` on `None`, raising `AttributeError` rather than any
designed error kind. -/
theorem C10_create_nio_unknown_type (env : NioEnv) (d : List (String × PyVal)) (t : PyVal)
    (ht : dget d "type" = .ok t) (hmem : t ∉ nioTypeNames) :
    create_nio env d = .error (.attributeError "NoneType object has no attribute create") := by
  simp only [nioTypeNames, List.mem_cons, List.not_mem_nil, or_false, not_or] at hmem
  obtain ⟨h1, h2, h3, h4, h5, h6, h7⟩ := hmem
  unfold create_nio
  rw [ht]
  unfold buildNio
  simp [h1, h2, h3, h4, h5, h6, h7]

/-- C10 witness: the dropped `nio_udp_auto` discriminator hits the
`AttributeError` path. -/
theorem C10_create_nio_unknown_type_witness :
    create_nio ⟨false, fun _ _ => false, [], false⟩ [("type", PyVal.str "nio_udp_auto")]
      = .error (.attributeError "NoneType object has no attribute create") :=
  C10_create_nio_unknown_type ⟨false, fun _ _ => false, [], false⟩
    [("type", PyVal.str "nio_udp_auto")] (PyVal.str "nio_udp_auto") (by decide) (by decide)

/-- C5: `create_device` is atomic with respect to the registry: a failing
project lookup or a failing asynchronous `create()` propagates the error and
leaves the identifier-to-device mapping unchanged; on success the device is
registered under its identifier (the fresh UUID when none was supplied) and
returned. -/
theorem C5_create_device_atomic (m : Manager) (name project_id : String)
    (device_id : Option String) (freshId : String) (createFails : Bool) :
    (let r := create_device m name project_id device_id freshId createFails
     let did := match device_id with
       | none => freshId
       | some s => if s = "" then freshId else s
     (∀ e, r.2 = .error e → r.1.devices = m.devices)
     ∧ (project_id ∉ m.projects → ∃ msg, r.2 = .error (.httpNotFound msg))
     ∧ (project_id ∈ m.projects → createFails = true →
         ∃ msg, r.2 = .error (.dynamipsError msg))
     ∧ (project_id ∈ m.projects → createFails = false →
         r.2 = .ok ⟨did, name, project_id⟩
         ∧ r.1.devices = aset m.devices did ⟨did, name, project_id⟩
         ∧ alookup r.1.devices did = some ⟨did, name, project_id⟩)) := by
  simp only [create_device, get_project]
  by_cases hp : project_id ∈ m.projects
  · cases createFails
    · simp [hp, alookup_aset_self]
    · simp [hp]
  · simp [hp]

/-- C5 witness: a concrete successful creation registers the device, and a
concrete failing `create()` leaves the registry unchanged. -/
theorem C5_create_device_atomic_witness :
    (let m : Manager := ⟨["p1"], [], []⟩
     let r := create_device m "R1" "p1" none "fresh-id" false
     r.2 = .ok ⟨"fresh-id", "R1", "p1"⟩
     ∧ r.1.devices = aset m.devices "fresh-id" ⟨"fresh-id", "R1", "p1"⟩
     ∧ alookup r.1.devices "fresh-id" = some ⟨"fresh-id", "R1", "p1"⟩) :=
  (C5_create_device_atomic ⟨["p1"], [], []⟩ "R1" "p1" none "fresh-id" false).2.2.2
    (by decide) rfl

/-- C6: for a registered device (under its own valid identifier, in a
duplicate-free registry), `delete_device` keeps the device registered when the
asynchronous teardown raises, removes it from the registry only after a
successful teardown, and a second `delete_device` with the same identifier
then fails `NotFound`. -/
theorem C6_delete_device_teardown_then_remove (m : Manager) (did : String) (d : Device)
    (hvalid : pyUUIDValid did = true) (hreg : alookup m.devices did = some d)
    (hid : d.id = did) (hnd : (m.devices.map Prod.fst).Nodup) :
    ((delete_device m did true).1 = m
      ∧ ∃ msg, (delete_device m did true).2 = .error (.dynamipsError msg))
    ∧ ((delete_device m did false).2 = .ok d
      ∧ alookup (delete_device m did false).1.devices did = none
      ∧ ∀ b, (delete_device (delete_device m did false).1 did b).2
          = .error (.httpNotFound ("Device ID " ++ did ++ " doesn\x27t exist"))) := by
  have hget : (get_device m did none).2 = .ok d := by
    simp [get_device, get_device_checked, hvalid, hreg]
  have hdel : delete_device m did false
      = ({m with devices := aerase m.devices did}, .ok d) := by
    simp [delete_device, hget, hid]
  refine ⟨⟨?_, ?_⟩, ?_, ?_, ?_⟩
  · simp [delete_device, hget]
  · exact ⟨"device delete failed", by simp [delete_device, hget]⟩
  · simp [hdel]
  · simp [hdel, alookup_aerase_self m.devices did hnd]
  · intro b
    have hmiss : alookup (aerase m.devices did) did = none :=
      alookup_aerase_self m.devices did hnd
    rw [hdel]
    have hget2 : (get_device {m with devices := aerase m.devices did} did none).2
        = .error (.httpNotFound ("Device ID " ++ did ++ " doesn\x27t exist")) := by
      simp [get_device, get_device_checked, hvalid, hmiss, fmt_device_missing]
    cases b <;> simp [delete_device, hget2]

/-- C6 witness: concrete registry with one device under a 32-hex identifier. -/
theorem C6_delete_device_teardown_then_remove_witness :
    (let did := "11111111111111111111111111111111"
     let d : Device := ⟨"11111111111111111111111111111111", "R1", "p1"⟩
     let m : Manager := ⟨["p1"], [(did, d)], []⟩
     ((delete_device m did true).1 = m
       ∧ ∃ msg, (delete_device m did true).2 = .error (.dynamipsError msg))
     ∧ ((delete_device m did false).2 = .ok d
       ∧ alookup (delete_device m did false).1.devices did = none
       ∧ ∀ b, (delete_device (delete_device m did false).1 did b).2
           = .error (.httpNotFound ("Device ID " ++ did ++ " doesn\x27t exist")))) :=
  C6_delete_device_teardown_then_remove
    ⟨["p1"], [("11111111111111111111111111111111",
      ⟨"11111111111111111111111111111111", "R1", "p1"⟩)], []⟩
    "11111111111111111111111111111111"
    ⟨"11111111111111111111111111111111", "R1", "p1"⟩
    (by decide) (by decide) rfl (by decide)

/-- C9: for a registered device and a supplied (known, truthy) `project_id`
that differs from the device's owning project, `get_device` fails with
`NotFound` — never `Forbidden` — so device existence is not leaked across
project boundaries. -/
theorem C9_get_device_cross_project_notfound (m : Manager) (did pid : String) (d : Device)
    (hpid : pid ∈ m.projects) (hpne : pid ≠ "") (hvalid : pyUUIDValid did = true)
    (hreg : alookup m.devices did = some d) (hmm : d.projectId ≠ pid) :
    (get_device m did (some pid)).2
      = .error (.httpNotFound
          ("Project ID " ++ pid ++ " doesn\x27t belong to device " ++ d.name)) := by
  simp [get_device, get_device_checked, hpne, get_project, hpid, hvalid, hreg, hmm,
    fmt_project_mismatch]

/-- C9 witness: a device of project p1 looked up under project p2. -/
theorem C9_get_device_cross_project_notfound_witness :
    (let did := "22222222222222222222222222222222"
     let d : Device := ⟨"22222222222222222222222222222222", "R2", "p1"⟩
     let m : Manager := ⟨["p1", "p2"], [(did, d)], []⟩
     (get_device m did (some "p2")).2
       = .error (.httpNotFound "Project ID p2 doesn\x27t belong to device R2")) :=
  C9_get_device_cross_project_notfound
    ⟨["p1", "p2"], [("22222222222222222222222222222222",
      ⟨"22222222222222222222222222222222", "R2", "p1"⟩)], []⟩
    "22222222222222222222222222222222" "p2"
    ⟨"22222222222222222222222222222222", "R2", "p1"⟩
    (by decide) (by decide) (by decide) (by decide) (by decide)

/-- Matcher for device-deletion events. -/
def isDeviceDeleteEv : PcEv → Bool
  | .deviceDelete _ => true
  | _ => false

/-- The events of one sweep iteration. -/
theorem sweepStep_snd (env : PcEnv) (st : List String) (f : String) :
    (sweepStep env st f).2
      = if env.removeFails f then [PcEv.fileRemove f, PcEv.logRemoveWarn f]
        else [PcEv.fileRemove f] := by
  simp only [sweepStep]
  split <;> rfl

/-- The ghost-set update of one sweep iteration. -/
theorem sweepStep_fst (env : PcEnv) (st : List String) (f : String) :
    (sweepStep env st f).1 = if f ∈ st then st.filter (fun g => g ≠ f) else st := by
  simp only [sweepStep]
  split <;> rfl

/-- The sweep loop emits no device-deletion events. -/
theorem sweepFiles_no_delete (env : PcEnv) (files : List String) :
    ∀ st, ((sweepFiles env st files).2.filter isDeviceDeleteEv) = [] := by
  induction files with
  | nil => intro st; rfl
  | cons f rest ih =>
    intro st
    simp only [sweepFiles, List.filter_append]
    rw [ih, sweepStep_snd]
    split <;> simp [isDeviceDeleteEv]

/-- The delete fan-out emits exactly one deletion event per registered device,
whatever the per-device failure oracle says. -/
theorem foldr_deletes_filter (env : PcEnv) (l : List (String × Device)) :
    ((l.foldr (fun p acc =>
        (if env.deleteFails p.2.id then [PcEv.deviceDelete p.2.id, PcEv.logDeleteError p.2.id]
         else [PcEv.deviceDelete p.2.id]) ++ acc) []).filter isDeviceDeleteEv)
      = l.map (fun p => PcEv.deviceDelete p.2.id) := by
  induction l with
  | nil => rfl
  | cons p rest ih =>
    simp only [List.foldr_cons, List.filter_append, ih]
    split <;> simp [isDeviceDeleteEv]

/-- C1 (amended): `project_closed` attempts the deletion of EVERY device in
the registry — one `delete()` per registered device, independent of which
project owns it and independent of any sibling deletion failures (failures
are logged and never abort the others). -/
theorem C1_project_closed_deletes_all_devices (env : PcEnv) (m : Manager) (project_dir : String) :
    ((project_closed env m project_dir).2.filter isDeviceDeleteEv)
      = m.devices.map (fun p => PcEv.deviceDelete p.2.id) := by
  simp only [project_closed, List.filter_append]
  rw [sweepFiles_no_delete, foldr_deletes_filter]
  simp

/-- Whatever survives the sweep was already in the ghost set. -/
theorem sweepFiles_subset (env : PcEnv) (files : List String) :
    ∀ st x, x ∈ (sweepFiles env st files).1 → x ∈ st := by
  induction files with
  | nil => intro st x h; exact h
  | cons f rest ih =>
    intro st x h
    simp only [sweepFiles] at h
    have h2 := ih _ x h
    rw [sweepStep_fst] at h2
    split at h2
    · exact List.mem_of_mem_filter h2
    · exact h2

/-- Every swept file is absent from the final ghost set — whether or not its
`os.remove` succeeded. -/
theorem sweepFiles_removes (env : PcEnv) (files : List String) :
    ∀ st f, f ∈ files → f ∉ (sweepFiles env st files).1 := by
  induction files with
  | nil => intro st f h; cases h
  | cons g rest ih =>
    intro st f hf
    simp only [sweepFiles]
    rcases List.mem_cons.mp hf with h | h
    · subst h
      intro hmem
      have h1 := sweepFiles_subset env rest _ f hmem
      rw [sweepStep_fst] at h1
      by_cases hin : f ∈ st
      · rw [if_pos hin] at h1
        simp at h1
      · rw [if_neg hin] at h1
        exact hin h1
    · exact ih _ f h

/-- C7 (amended): a path matched by the stale-artifact glob sweep is removed
from the in-memory ghost set BEFORE its filesystem deletion is attempted, so
after `project_closed` the path is absent from the ghost set even when its
`os.remove` failed with an `OSError`. -/
theorem C7_swept_file_leaves_ghost_set (env : PcEnv) (m : Manager) (project_dir f : String)
    (hf : f ∈ globFiles env (joinPath (joinPath project_dir "project-files") "dynamips")) :
    f ∉ (project_closed env m project_dir).1.ghostFiles := by
  simp only [project_closed]
  exact sweepFiles_removes env _ m.ghostFiles f hf

/-- C7 (amended) witness: a concrete ghost marker whose removal fails is still
gone from the set. -/
theorem C7_swept_file_leaves_ghost_set_witness :
    "/w/project-files/dynamips/b.ghost"
      ∈ globFiles ⟨["/w/project-files/dynamips/b.ghost"], fun _ => true, fun _ => false⟩
          (joinPath (joinPath "/w" "project-files") "dynamips")
    ∧ "/w/project-files/dynamips/b.ghost"
      ∉ (project_closed ⟨["/w/project-files/dynamips/b.ghost"], fun _ => true, fun _ => false⟩
          ⟨[], [], ["/w/project-files/dynamips/b.ghost"]⟩ "/w").1.ghostFiles :=
  ⟨by decide,
   C7_swept_file_leaves_ghost_set
     ⟨["/w/project-files/dynamips/b.ghost"], fun _ => true, fun _ => false⟩
     ⟨[], [], ["/w/project-files/dynamips/b.ghost"]⟩ "/w"
     "/w/project-files/dynamips/b.ghost" (by decide)⟩

/-- Decimal digit characters are never slashes. -/
theorem digitChar_ne_slash (k : Nat) (hk : k < 10) : digitChar k ≠ '/' := by
  interval_cases k <;> decide

/-- `str(n)` never contains a slash. -/
theorem natStrAux_no_slash (fuel : Nat) : ∀ n, ∀ c ∈ natStrAux fuel n, c ≠ '/' := by
  induction fuel with
  | zero =>
    intro n c hc
    simp [natStrAux] at hc
  | succ f ih =>
    intro n c hc
    simp only [natStrAux] at hc
    by_cases h : n < 10
    · rw [if_pos h] at hc
      simp only [List.mem_singleton] at hc
      subst hc
      exact digitChar_ne_slash n h
    · rw [if_neg h] at hc
      rcases List.mem_append.mp hc with h1 | h1
      · exact ih (n / 10) c h1
      · simp only [List.mem_singleton] at h1
        subst h1
        exact digitChar_ne_slash (n % 10) (Nat.mod_lt _ (by omega))

/-- A slash-free run leaves `basename`'s accumulator appending. -/
theorem basenameL_run (b : List Char) : ∀ acc, (∀ c ∈ b, c ≠ '/') →
    b.foldl (fun acc c => if c = '/' then [] else acc ++ [c]) acc = acc ++ b := by
  induction b with
  | nil =>
    intro acc _
    simp
  | cons x xs ih =>
    intro acc h
    have hx : x ≠ '/' := h x (by simp)
    simp only [List.foldl_cons, if_neg hx]
    rw [ih (acc ++ [x]) (fun c hc => h c (by simp [hc]))]
    simp

/-- `os.path.basename(os.path.join(a, f))` recovers a slash-free `f`. -/
theorem basename_joinPath (a f : String) (hf : ∀ c ∈ f.data, c ≠ '/') :
    basename (joinPath a f) = f := by
  unfold basename basenameL
  have hd : (joinPath a f).data = a.data ++ ('/' :: f.data) := by
    show (a.data ++ ['/']) ++ f.data = _
    simp
  rw [hd, List.foldl_append]
  simp only [List.foldl_cons, if_pos rfl, if_true]
  rw [basenameL_run f.data [] hf]
  rfl

/-- The startup-config default filename contains no slash. -/
theorem startup_fname_no_slash (idn : Nat) :
    ∀ c ∈ ("i" ++ natStr idn ++ "_startup-config.cfg").data, c ≠ '/' := by
  intro c hc
  have hsuffix : ∀ x ∈ "_startup-config.cfg".data, x ≠ '/' := by decide
  have hc2 : c ∈ ('i' :: (natStrAux (idn + 1) idn ++ "_startup-config.cfg".data)) := by
    simpa [natStr, List.append_assoc] using hc
  rcases List.mem_cons.mp hc2 with h | h
  · subst h
    decide
  · rcases List.mem_append.mp h with h1 | h1
    · exact natStrAux_no_slash (idn + 1) idn c h1
    · exact hsuffix c h1

/-- The relative pointer path computed by `_create_config` for the startup
config, in its literal `configs/i<id>_startup-config.cfg` form. -/
theorem config_rel_path_eq (idn : Nat) :
    joinPath "configs" ("i" ++ natStr idn ++ "_startup-config.cfg")
      = "configs/i" ++ natStr idn ++ "_startup-config.cfg" := by
  apply String.ext
  show ("configs".data ++ ['/']) ++ (("i".data ++ (natStr idn).data) ++ "_startup-config.cfg".data)
      = ("configs/i".data ++ (natStr idn).data) ++ "_startup-config.cfg".data
  simp [List.append_assoc]

/-- The `%h` substitution skips the `!` marker line. -/
theorem replacePercentH_marker (l rep : List Char) :
    replacePercentH ('!' :: '\n' :: l) rep = '!' :: '\n' :: replacePercentH l rep := by
  cases l with
  | nil => rfl
  | cons x xs => simp [replacePercentH]

/-- The rendered config content in claim form: the marker line, then the
pushed content with carriage returns removed and `%h` substituted. -/
theorem renderConfig_eq (content name : String) :
    renderConfig content name
      = "!\n" ++ String.mk (replacePercentH (pyReplaceL content.data ['\x0d'] []) name.data) := by
  unfold renderConfig
  rw [replacePercentH_marker]
  rfl

/-- C8: for every non-empty startup-config content, `create_vm_configs`
writes the file whose content is the `!` marker line followed by the pushed
content with carriage returns removed and every `%h` replaced by the device
name, and points the device at `configs/i<dynamips_id>_startup-config.cfg`;
a directory-creation or write failure raises `DynamipsError` (the `IOError`
kind of the spec) and the pointer is untouched. -/
theorem C8_create_vm_configs_startup (env : CfgEnv) (vm : CVM) (content : String)
    (hne : content ≠ "") :
    (let path := defaultConfigPath vm "_startup-config.cfg"
     let rel := "configs/i" ++ natStr vm.dynamips_id ++ "_startup-config.cfg"
     let r := create_vm_configs env vm content ""
     (env.makedirsFails = false → env.writeFails path = false →
       r = ({vm with startup_config := rel},
            [.fileWrite path
               ("!\n" ++ String.mk (replacePercentH (pyReplaceL content.data ['\x0d'] []) vm.name.data)),
             .setConfigStartup rel], .ok ()))
     ∧ ((env.makedirsFails = true ∨ env.writeFails path = true) →
        ∃ msg, r = (vm, [], .error (.dynamipsError msg)))) := by
  have hrel : joinPath "configs" (basename (defaultConfigPath vm "_startup-config.cfg"))
      = "configs/i" ++ natStr vm.dynamips_id ++ "_startup-config.cfg" := by
    simp only [defaultConfigPath]
    rw [basename_joinPath _ _ (startup_fname_no_slash vm.dynamips_id),
      config_rel_path_eq]
  constructor
  · intro h1 h2
    simp only [create_vm_configs, create_config, h1, h2]
    simp [hne, hrel, renderConfig_eq]
  · intro hfail
    rcases hfail with h | h
    · simp only [create_vm_configs, create_config, hne, h]
      simp [hne]
    · by_cases hmk : env.makedirsFails = true
      · simp only [create_vm_configs, create_config, hne, hmk]
        simp [hne]
      · simp only [Bool.not_eq_true] at hmk
        simp only [create_vm_configs, create_config, hne, hmk, h]
        simp [hne]

/-- C8 witness: a concrete device and content exercise the success path. -/
theorem C8_create_vm_configs_startup_witness :
    create_vm_configs ⟨false, fun _ => false⟩ ⟨"R1", 2, "", "", "/w"⟩ "hostname %h\x0d\nend" ""
      = ({name := "R1", dynamips_id := 2,
          startup_config := "configs/i" ++ natStr 2 ++ "_startup-config.cfg",
          private_config := "", moduleWorkdir := "/w"},
         [.fileWrite (defaultConfigPath ⟨"R1", 2, "", "", "/w"⟩ "_startup-config.cfg")
            ("!\n" ++ String.mk (replacePercentH
               (pyReplaceL "hostname %h\x0d\nend".data ['\x0d'] []) "R1".data)),
          .setConfigStartup ("configs/i" ++ natStr 2 ++ "_startup-config.cfg")], .ok ()) :=
  (C8_create_vm_configs_startup ⟨false, fun _ => false⟩ ⟨"R1", 2, "", "", "/w"⟩
    "hostname %h\x0d\nend" (by decide)).1 rfl rfl

/-- Matcher for the ghost-router `create` call. -/
def isGhostCreateEv : GhostEv → Bool
  | .ghostCreate _ => true
  | _ => false

/-- Matcher for the ghost-router `set_image` call. -/
def isGhostSetImageEv : GhostEv → Bool
  | .ghostSetImage _ => true
  | _ => false

/-- Matcher for the ghost-router `start` call. -/
def isGhostStartEv : GhostEv → Bool
  | .ghostStart => true
  | _ => false

/-- Matcher for the ghost-router `stop` call. -/
def isGhostStopEv : GhostEv → Bool
  | .ghostStop => true
  | _ => false

/-- Matcher for the ghost-router `clean_delete` call. -/
def isGhostCleanDeleteEv : GhostEv → Bool
  | .ghostCleanDelete => true
  | _ => false

/-- Matcher for any call of the throwaway-device priming sequence. -/
def isPrimingEv (e : GhostEv) : Bool :=
  isGhostCreateEv e || isGhostSetImageEv e || isGhostStartEv e || isGhostStopEv e
    || isGhostCleanDeleteEv e

/-- A straight-line call run with no failures records every call in order. -/
theorem runSteps_ok (env : GhostEnv) (hfail : ∀ s, env.stepFails s = false)
    (l : List (GhostStep × GhostEv)) : runSteps env l = (true, l.map Prod.snd) := by
  induction l with
  | nil => rfl
  | cons p rest ih =>
    obtain ⟨s, e⟩ := p
    simp [runSteps, hfail s, ih]

/-- C3: for two devices referencing the identical image under the same
hypervisor working directory (both mmap-capable, all hypervisor calls
succeeding, path not yet primed), running `_set_ghost_ios` for the first and
then the second executes the throwaway-device sequence — create, set image,
start, stop, clean delete — exactly once in total; the second run finds the
path in the in-memory primed set, re-issues none of the priming calls, and
(when not already pointing at the ghost file that `os.path.isfile` reports
present) consumes the cached ghost file. -/
theorem C3_ghost_priming_once (env : GhostEnv) (st0 : List String) (vm1 vm2 : GVM)
    (h1 : vm1.mmap = true) (h2 : vm2.mmap = true)
    (himg : vm2.image = vm1.image) (hwd : vm2.workingDir = vm1.workingDir)
    (hfail : ∀ s, env.stepFails s = false)
    (hnew : joinPath vm1.workingDir (formatted_ghost_file vm1) ∉ st0) :
    (let r1 := set_ghost_ios env st0 vm1
     let r2 := set_ghost_ios env r1.1 vm2
     let evs1 := r1.2.2.1
     let evs2 := r2.2.2.1
     ((evs1 ++ evs2).countP isGhostCreateEv = 1
      ∧ (evs1 ++ evs2).countP isGhostSetImageEv = 1
      ∧ (evs1 ++ evs2).countP isGhostStartEv = 1
      ∧ (evs1 ++ evs2).countP isGhostStopEv = 1
      ∧ (evs1 ++ evs2).countP isGhostCleanDeleteEv = 1)
     ∧ evs2.countP isPrimingEv = 0
     ∧ (vm2.ghost_file ≠ formatted_ghost_file vm2 →
        env.isfile (formatted_ghost_file vm2) = true →
        GhostEv.vmSetGhostFile (formatted_ghost_file vm2) ∈ evs2)) := by
  have hgf2 : formatted_ghost_file vm2 = formatted_ghost_file vm1 := by
    simp [formatted_ghost_file, himg]
  have hpath2 : joinPath vm2.workingDir (formatted_ghost_file vm2)
      = joinPath vm1.workingDir (formatted_ghost_file vm1) := by
    rw [hgf2, hwd]
  have houter := runSteps_ok env hfail (primeOuterSteps vm1 (formatted_ghost_file vm1))
  have hprime : primeGhost env st0 vm1 (formatted_ghost_file vm1)
        (joinPath vm1.workingDir (formatted_ghost_file vm1))
      = (st0 ++ [joinPath vm1.workingDir (formatted_ghost_file vm1)],
         (primeOuterSteps vm1 (formatted_ghost_file vm1)).map Prod.snd
           ++ [.ghostStart, .ghostStop, .ghostCleanDelete]) := by
    simp [primeGhost, houter, hfail, hnew]
  by_cases hp : vm1.platform = "c7200" <;>
    by_cases hb1 : vm1.ghost_file = formatted_ghost_file vm1 <;>
    by_cases hb2 : vm2.ghost_file = formatted_ghost_file vm1 <;>
    by_cases hf1 : env.isfile (formatted_ghost_file vm1) = true <;>
    simp_all [set_ghost_ios, h1, h2, hgf2, hpath2, hnew, hprime, primeOuterSteps,
      List.countP_append, List.countP_cons, isGhostCreateEv, isGhostSetImageEv,
      isGhostStartEv, isGhostStopEv, isGhostCleanDeleteEv, isPrimingEv]

/-- C3 witness: two concrete c7200 devices sharing an image. -/
theorem C3_ghost_priming_once_witness :
    (let env : GhostEnv := ⟨fun _ => true, fun _ => false⟩
     let st0 : List String := []
     let vm1 : GVM := ⟨"R1", true, "c7200", "/img/ios.bin", 128, "npe-400", "", 0, "/wd"⟩
     let vm2 : GVM := ⟨"R2", true, "c7200", "/img/ios.bin", 256, "npe-400", "", 0, "/wd"⟩
     let r1 := set_ghost_ios env st0 vm1
     let r2 := set_ghost_ios env r1.1 vm2
     let evs1 := r1.2.2.1
     let evs2 := r2.2.2.1
     ((evs1 ++ evs2).countP isGhostCreateEv = 1
      ∧ (evs1 ++ evs2).countP isGhostSetImageEv = 1
      ∧ (evs1 ++ evs2).countP isGhostStartEv = 1
      ∧ (evs1 ++ evs2).countP isGhostStopEv = 1
      ∧ (evs1 ++ evs2).countP isGhostCleanDeleteEv = 1)
     ∧ evs2.countP isPrimingEv = 0
     ∧ (vm2.ghost_file ≠ formatted_ghost_file vm2 →
        env.isfile (formatted_ghost_file vm2) = true →
        GhostEv.vmSetGhostFile (formatted_ghost_file vm2) ∈ evs2)) :=
  C3_ghost_priming_once ⟨fun _ => true, fun _ => false⟩ []
    ⟨"R1", true, "c7200", "/img/ios.bin", 128, "npe-400", "", 0, "/wd"⟩
    ⟨"R2", true, "c7200", "/img/ios.bin", 256, "npe-400", "", 0, "/wd"⟩
    rfl rfl rfl rfl (fun _ => rfl) (by decide)

def isRebindEv : RecEv → Bool
  | .slotAdd _ _ => true
  | .wicInstall _ _ => true
  | _ => false

theorem get?_lt_of_some {α : Type} {l : List α} {i : Nat} {a : α}
    (h : l[i]? = some a) : i < l.length := by
  by_contra hlt
  rw [List.getElem?_eq_none (by omega)] at h
  cases h

theorem strStarts_slot_not_wic {s : String} (h : strStarts s "slot" = true) :
    strStarts s "wic" = false := by
  unfold strStarts at h ⊢
  cases hd : s.data with
  | nil => rw [hd] at h; simp [List.isPrefixOf] at h
  | cons c rest =>
    rw [hd] at h
    simp only [show "slot".data = ['s', 'l', 'o', 't'] from rfl] at h
    simp at h
    simp only [show "wic".data = ['w', 'i', 'c'] from rfl]
    rw [← h.1]
    simp [List.isPrefixOf]

def keysCompat (a b : String × PyVal) : Prop :=
  a.1 ≠ b.1
  ∧ (strStarts a.1 "slot" = true → strStarts b.1 "slot" = true →
      ∀ i, lastCharDigit a.1 = .ok i → lastCharDigit b.1 = .ok i → False)
  ∧ (strStarts a.1 "wic" = true → strStarts b.1 "wic" = true →
      ∀ i, lastCharDigit a.1 = .ok i → lastCharDigit b.1 = .ok i → False)

theorem elifSlots_attrs_setters {vm vm2 : RVM} {name : String} {value : PyVal}
    {evs : List RecEv} (h : elifSlots vm name value = .ok (vm2, evs)) :
    vm2.attrs = vm.attrs ∧ vm2.setters = vm.setters := by
  unfold elifSlots at h
  split_ifs at h <;>
    (try (repeat' (first | split at h | split_ifs at h))) <;>
    first
      | (simp only [Except.ok.injEq, Prod.mk.injEq] at h
         obtain ⟨h1, h2⟩ := h
         subst h1
         simp [setSlot, setWic0])
      | simp_all

theorem get?_set_forces {α : Type} {l : List α} {i : Nat} {a b : α}
    (h : (l.set i a)[i]? = some b) : b = a := by
  by_cases hl : i < l.length
  · rw [List.getElem?_set, if_pos rfl, if_pos hl] at h
    exact (Option.some.inj h).symm
  · rw [List.getElem?_set, if_pos rfl, if_neg hl] at h
    cases h

theorem getElem?_set_self_of_lt {α : Type} (a : α) {l : List α} {i : Nat}
    (h : i < l.length) : (l.set i a)[i]? = some a := by
  rw [List.getElem?_set, if_pos rfl, if_pos h]

theorem isAdapterVal_none : isAdapterVal PyVal.none = false := rfl

theorem isWicVal_none : isWicVal PyVal.none = false := rfl

theorem strStarts_wic_not_slot {s : String} (h : strStarts s "wic" = true) :
    strStarts s "slot" = false := by
  by_contra hc
  simp only [Bool.not_eq_false] at hc
  rw [strStarts_slot_not_wic hc] at h
  cases h

theorem getElem?_set_other {α : Type} (a : α) {l : List α} {i j : Nat} (h : i ≠ j) :
    (l.set i a)[j]? = l[j]? := by
  rw [List.getElem?_set, if_neg h]

def slotPost (slots : List (Option Adapter)) (i : Nat) (value : PyVal) : Prop :=
  ∀ occ, slots[i]? = some (some occ) → occ.typeName = pyStr value

def slotVacant (slots : List (Option Adapter)) (i : Nat) : Prop :=
  ∀ occ, slots[i]? = some (some occ) → False

def wicPost (slots : List (Option Adapter)) (j : Nat) (value : PyVal) : Prop :=
  ∀ ad w, slots[0]? = some (some ad) → ad.wics[j]? = some (some w) → w = pyStr value

def wicVacant (slots : List (Option Adapter)) (j : Nat) : Prop :=
  ∀ ad w, slots[0]? = some (some ad) → ad.wics[j]? = some (some w) → False

def elifPost (slots : List (Option Adapter)) (name : String) (value : PyVal) : Prop :=
  ((strStarts name "slot" = true ∧ isAdapterVal value = true) →
    ∀ i, lastCharDigit name = .ok i → slotPost slots i value)
  ∧ ((strStarts name "slot" = true ∧ value = PyVal.none) →
    ∀ i, lastCharDigit name = .ok i → slotVacant slots i)
  ∧ ((strStarts name "wic" = true ∧ isWicVal value = true) →
    ∀ j, lastCharDigit name = .ok j → wicPost slots j value)
  ∧ ((strStarts name "wic" = true ∧ value = PyVal.none) →
    ∀ j, lastCharDigit name = .ok j → wicVacant slots j)

def keyPost (vm : RVM) (name : String) (value : PyVal) : Prop :=
  (∀ cur, alookup vm.attrs name = some cur → cur ≠ value → name ∉ vm.setters)
  ∧ (alookup vm.attrs name = none → elifPost vm.slots name value)

theorem slotPost_congr {slots slots2 : List (Option Adapter)} {i : Nat} {value : PyVal}
    (hr : slots2[i]? = slots[i]?) (hp : slotPost slots i value) : slotPost slots2 i value :=
  fun occ hocc => hp occ (hr.symm.trans hocc)

theorem slotVacant_congr {slots slots2 : List (Option Adapter)} {i : Nat}
    (hr : slots2[i]? = slots[i]?) (hp : slotVacant slots i) : slotVacant slots2 i :=
  fun occ hocc => hp occ (hr.symm.trans hocc)

theorem wicPost_congr {slots slots2 : List (Option Adapter)} {j : Nat} {value : PyVal}
    (hr : slots2[0]? = slots[0]?) (hp : wicPost slots j value) : wicPost slots2 j value :=
  fun ad w h0 hw => hp ad w (hr.symm.trans h0) hw

theorem wicVacant_congr {slots slots2 : List (Option Adapter)} {j : Nat}
    (hr : slots2[0]? = slots[0]?) (hp : wicVacant slots j) : wicVacant slots2 j :=
  fun ad w h0 hw => hp ad w (hr.symm.trans h0) hw

theorem slotPost_set_adapter (slots : List (Option Adapter)) (i : Nat) (value : PyVal) :
    slotPost (slots.set i (some (adapterNew (pyStr value)))) i value := by
  intro occ hocc
  have h2 := Option.some.inj (get?_set_forces hocc)
  rw [h2]
  rfl

theorem slotPost_double_set_adapter (slots : List (Option Adapter)) (i : Nat) (value : PyVal) :
    slotPost ((slots.set i none).set i (some (adapterNew (pyStr value)))) i value := by
  intro occ hocc
  have h2 := Option.some.inj (get?_set_forces hocc)
  rw [h2]
  rfl

theorem slotVacant_set_none (slots : List (Option Adapter)) (i : Nat) :
    slotVacant (slots.set i none) i := by
  intro occ hocc
  cases get?_set_forces hocc

theorem wics_nil_no_wic {slots : List (Option Adapter)} {j : Nat} {a : Adapter}
    (hset : slots[0]? = some (some a)) (hnil : a.wics = []) : wicVacant slots j := by
  intro ad w h0 hw
  have := Option.some.inj (Option.some.inj (hset.symm.trans h0))
  rw [← this, hnil] at hw
  cases hw

theorem wicPost_set0_install (slots : List (Option Adapter)) (ad : Adapter) (j2 : Nat)
    (value : PyVal) :
    wicPost (slots.set 0 (some ⟨ad.typeName, ad.wics.set j2 (some (pyStr value))⟩)) j2 value := by
  intro ad2 w h0 hw
  have h2 := Option.some.inj (get?_set_forces h0)
  rw [h2] at hw
  have hw2 : (ad.wics.set j2 (some (pyStr value)))[j2]? = some (some w) := hw
  exact Option.some.inj (get?_set_forces hw2)

theorem wicVacant_set0_uninstall (slots : List (Option Adapter)) (ad : Adapter) (j2 : Nat) :
    wicVacant (slots.set 0 (some ⟨ad.typeName, ad.wics.set j2 none⟩)) j2 := by
  intro ad2 w h0 hw
  have h2 := Option.some.inj (get?_set_forces h0)
  rw [h2] at hw
  have hw2 : (ad.wics.set j2 (none : Option String))[j2]? = some (some w) := hw
  cases get?_set_forces hw2

theorem elifPost_build_slotAdapter {slots2 : List (Option Adapter)} {name : String}
    {value : PyVal} {i2 : Nat}
    (hg1 : strStarts name "slot" = true ∧ isAdapterVal value = true)
    (hdig : lastCharDigit name = .ok i2)
    (hsp : slotPost slots2 i2 value) : elifPost slots2 name value := by
  refine ⟨?_, ?_, ?_, ?_⟩
  · rintro - i hi
    rw [hdig] at hi
    injection hi with hii
    subst hii
    exact hsp
  · rintro ⟨-, hvnone⟩
    rw [hvnone, isAdapterVal_none] at hg1
    cases hg1.2
  · rintro ⟨hwic, -⟩
    rw [strStarts_slot_not_wic hg1.1] at hwic
    cases hwic
  · rintro ⟨hwic, -⟩
    rw [strStarts_slot_not_wic hg1.1] at hwic
    cases hwic

theorem elifPost_build_slotNone {slots2 : List (Option Adapter)} {name : String}
    {value : PyVal} {i2 : Nat}
    (hg2 : strStarts name "slot" = true ∧ value = PyVal.none)
    (hdig : lastCharDigit name = .ok i2)
    (hsv : slotVacant slots2 i2) : elifPost slots2 name value := by
  refine ⟨?_, ?_, ?_, ?_⟩
  · rintro ⟨-, hadapt⟩
    rw [hg2.2, isAdapterVal_none] at hadapt
    cases hadapt
  · rintro - i hi
    rw [hdig] at hi
    injection hi with hii
    subst hii
    exact hsv
  · rintro ⟨hwic, -⟩
    rw [strStarts_slot_not_wic hg2.1] at hwic
    cases hwic
  · rintro ⟨hwic, -⟩
    rw [strStarts_slot_not_wic hg2.1] at hwic
    cases hwic

theorem elifPost_build_wic {slots2 : List (Option Adapter)} {name : String}
    {value : PyVal} {j2 : Nat}
    (hg3 : strStarts name "wic" = true ∧ isWicVal value = true)
    (hdig : lastCharDigit name = .ok j2)
    (hwp : wicPost slots2 j2 value) : elifPost slots2 name value := by
  refine ⟨?_, ?_, ?_, ?_⟩
  · rintro ⟨hslotp, -⟩
    rw [strStarts_wic_not_slot hg3.1] at hslotp
    cases hslotp
  · rintro ⟨hslotp, -⟩
    rw [strStarts_wic_not_slot hg3.1] at hslotp
    cases hslotp
  · rintro - j hj
    rw [hdig] at hj
    injection hj with hjj
    subst hjj
    exact hwp
  · rintro ⟨-, hvnone⟩
    rw [hvnone, isWicVal_none] at hg3
    cases hg3.2

theorem elifPost_build_wicNone {slots2 : List (Option Adapter)} {name : String}
    {value : PyVal} {j2 : Nat}
    (hg4 : strStarts name "wic" = true ∧ value = PyVal.none)
    (hdig : lastCharDigit name = .ok j2)
    (hwv : wicVacant slots2 j2) : elifPost slots2 name value := by
  refine ⟨?_, ?_, ?_, ?_⟩
  · rintro ⟨hslotp, -⟩
    rw [strStarts_wic_not_slot hg4.1] at hslotp
    cases hslotp
  · rintro ⟨hslotp, -⟩
    rw [strStarts_wic_not_slot hg4.1] at hslotp
    cases hslotp
  · rintro ⟨-, hwval⟩
    rw [hg4.2, isWicVal_none] at hwval
    cases hwval
  · rintro - j hj
    rw [hdig] at hj
    injection hj with hjj
    subst hjj
    exact hwv

theorem elifPost_of_guards_false {slots2 : List (Option Adapter)} {name : String} {value : PyVal}
    (hg1 : ¬(strStarts name "slot" = true ∧ isAdapterVal value = true))
    (hg2 : ¬(strStarts name "slot" = true ∧ value = PyVal.none))
    (hg3 : ¬(strStarts name "wic" = true ∧ isWicVal value = true))
    (hg4 : ¬(strStarts name "wic" = true ∧ value = PyVal.none)) :
    elifPost slots2 name value :=
  ⟨fun hc => absurd hc hg1, fun hc => absurd hc hg2,
   fun hc => absurd hc hg3, fun hc => absurd hc hg4⟩

theorem elifSlots_post {vm vm2 : RVM} {name : String} {value : PyVal} {evs : List RecEv}
    (h : elifSlots vm name value = .ok (vm2, evs)) : elifPost vm2.slots name value := by
  unfold elifSlots at h
  by_cases hg1 : strStarts name "slot" = true ∧ isAdapterVal value = true
  · rw [if_pos hg1] at h
    cases hdig : lastCharDigit name with
    | error e => simp [hdig] at h
    | ok i2 =>
      simp only [hdig] at h
      rcases hslot : vm.slots[i2]? with _ | (_ | occ)
      · simp [hslot] at h
      · simp only [hslot] at h
        have hvm : _ = vm2 := congrArg Prod.fst (Except.ok.inj h)
        refine elifPost_build_slotAdapter hg1 hdig ?_
        rw [← hvm]
        exact slotPost_set_adapter vm.slots i2 value
      · simp only [hslot] at h
        refine elifPost_build_slotAdapter hg1 hdig ?_
        split at h
        · have hvm : _ = vm2 := congrArg Prod.fst (Except.ok.inj h)
          rw [← hvm]
          exact slotPost_double_set_adapter vm.slots i2 value
        · have hvm : _ = vm2 := congrArg Prod.fst (Except.ok.inj h)
          rw [← hvm]
          exact slotPost_set_adapter vm.slots i2 value
  · rw [if_neg hg1] at h
    by_cases hg2 : strStarts name "slot" = true ∧ value = PyVal.none
    · rw [if_pos hg2] at h
      cases hdig : lastCharDigit name with
      | error e => simp [hdig] at h
      | ok i2 =>
        simp only [hdig] at h
        rcases hslot : vm.slots[i2]? with _ | (_ | occ)
        · simp [hslot] at h
        · simp only [hslot] at h
          have hvm : _ = vm2 := congrArg Prod.fst (Except.ok.inj h)
          refine elifPost_build_slotNone hg2 hdig ?_
          rw [← hvm]
          intro occ2 hocc2
          cases Option.some.inj (hslot.symm.trans hocc2)
        · simp only [hslot] at h
          have hvm : _ = vm2 := congrArg Prod.fst (Except.ok.inj h)
          refine elifPost_build_slotNone hg2 hdig ?_
          rw [← hvm]
          exact slotVacant_set_none vm.slots i2
    · rw [if_neg hg2] at h
      by_cases hg3 : strStarts name "wic" = true ∧ isWicVal value = true
      · rw [if_pos hg3] at h
        cases hdig : lastCharDigit name with
        | error e => simp [hdig] at h
        | ok j2 =>
          simp only [hdig] at h
          rcases hslot0 : vm.slots[0]? with _ | (_ | ad)
          · simp [hslot0] at h
          · simp [hslot0] at h
          · simp only [hslot0] at h
            rcases hbay : ad.wics[j2]? with _ | (_ | w)
            · simp [hbay] at h
            · simp only [hbay] at h
              have hvm : _ = vm2 := congrArg Prod.fst (Except.ok.inj h)
              refine elifPost_build_wic hg3 hdig ?_
              rw [← hvm]
              exact wicPost_set0_install vm.slots ad j2 value
            · simp only [hbay] at h
              refine elifPost_build_wic hg3 hdig ?_
              split at h
              · have hvm : _ = vm2 := congrArg Prod.fst (Except.ok.inj h)
                rw [← hvm]
                exact wicPost_set0_install vm.slots ad j2 value
              · have hvm : _ = vm2 := congrArg Prod.fst (Except.ok.inj h)
                rw [← hvm]
                exact wicPost_set0_install vm.slots ad j2 value
      · rw [if_neg hg3] at h
        by_cases hg4 : strStarts name "wic" = true ∧ value = PyVal.none
        · rw [if_pos hg4] at h
          cases hdig : lastCharDigit name with
          | error e => simp [hdig] at h
          | ok j2 =>
            simp only [hdig] at h
            rcases hslot0 : vm.slots[0]? with _ | (_ | ad)
            · simp [hslot0] at h
            · simp [hslot0] at h
            · simp only [hslot0] at h
              refine elifPost_build_wicNone hg4 hdig ?_
              by_cases hnil : ad.wics = []
              · rw [if_pos hnil] at h
                have hvm : _ = vm2 := congrArg Prod.fst (Except.ok.inj h)
                rw [← hvm]
                exact wics_nil_no_wic hslot0 hnil
              · rw [if_neg hnil] at h
                rcases hbay : ad.wics[j2]? with _ | (_ | w)
                · simp [hbay] at h
                · simp only [hbay] at h
                  have hvm : _ = vm2 := congrArg Prod.fst (Except.ok.inj h)
                  rw [← hvm]
                  intro ad2 w2 h0 hw
                  have had2 := Option.some.inj (Option.some.inj (hslot0.symm.trans h0))
                  rw [← had2] at hw
                  cases Option.some.inj (hbay.symm.trans hw)
                · simp only [hbay] at h
                  have hvm : _ = vm2 := congrArg Prod.fst (Except.ok.inj h)
                  rw [← hvm]
                  exact wicVacant_set0_uninstall vm.slots ad j2
        · rw [if_neg hg4] at h
          exact elifPost_of_guards_false hg1 hg2 hg3 hg4

theorem elifSlots_preserves_elifPost {vm vm2 : RVM} {k2 : String} {v2 : PyVal}
    {evs : List RecEv}
    (h : elifSlots vm k2 v2 = .ok (vm2, evs))
    {k : String} {v : PyVal}
    (hcomp : keysCompat (k, v) (k2, v2))
    (hep : elifPost vm.slots k v) : elifPost vm2.slots k v := by
  unfold elifSlots at h
  by_cases hg1 : strStarts k2 "slot" = true ∧ isAdapterVal v2 = true
  · rw [if_pos hg1] at h
    cases hdig : lastCharDigit k2 with
    | error e => simp [hdig] at h
    | ok i2 =>
      simp only [hdig] at h
      rcases hslot : vm.slots[i2]? with _ | (_ | occ)
      · simp [hslot] at h
      ·
        simp only [hslot] at h
        have hvm : _ = vm2 := congrArg Prod.fst (Except.ok.inj h)
        rw [← hvm]
        exact
          ⟨fun hant i hi => by
            by_cases hii : i2 = i
            · subst hii
              exact ((hcomp.2.1 hant.1 hg1.1 i2 hi hdig)).elim
            · exact slotPost_congr (getElem?_set_other _ hii) (hep.1 hant i hi),
           fun hant i hi => by
            by_cases hii : i2 = i
            · subst hii
              exact ((hcomp.2.1 hant.1 hg1.1 i2 hi hdig)).elim
            · exact slotVacant_congr (getElem?_set_other _ hii) (hep.2.1 hant i hi),
           fun hant j hj => by
            by_cases hiz : i2 = 0
            · subst hiz
              intro ad w h0 hw
              have had := Option.some.inj (get?_set_forces h0)
              rw [had] at hw
              simp [adapterNew] at hw
            · exact wicPost_congr (getElem?_set_other _ hiz) (hep.2.2.1 hant j hj),
           fun hant j hj => by
            by_cases hiz : i2 = 0
            · subst hiz
              intro ad w h0 hw
              have had := Option.some.inj (get?_set_forces h0)
              rw [had] at hw
              simp [adapterNew] at hw
            · exact wicVacant_congr (getElem?_set_other _ hiz) (hep.2.2.2 hant j hj)⟩
      ·
        simp only [hslot] at h
        have main : ∀ (newSlots : List (Option Adapter)),
            vm2.slots = newSlots →
            (∀ i, i2 ≠ i → newSlots[i]? = vm.slots[i]?) →
            (∀ b, newSlots[i2]? = some b → b = some (adapterNew (pyStr v2))) →
            elifPost vm2.slots k v := by
          intro newSlots hns hother hforce
          rw [hns]
          refine ⟨?_, ?_, ?_, ?_⟩
          · intro hant i hi
            by_cases hii : i2 = i
            · subst hii
              exact ((hcomp.2.1 hant.1 hg1.1 i2 hi hdig)).elim
            · exact slotPost_congr (hother i hii) (hep.1 hant i hi)
          · intro hant i hi
            by_cases hii : i2 = i
            · subst hii
              exact ((hcomp.2.1 hant.1 hg1.1 i2 hi hdig)).elim
            · exact slotVacant_congr (hother i hii) (hep.2.1 hant i hi)
          · intro hant j hj
            by_cases hiz : i2 = 0
            · subst hiz
              intro ad w h0 hw
              have had := Option.some.inj (hforce _ h0)
              rw [had] at hw
              simp [adapterNew] at hw
            · exact wicPost_congr (hother 0 hiz) (hep.2.2.1 hant j hj)
          · intro hant j hj
            by_cases hiz : i2 = 0
            · subst hiz
              intro ad w h0 hw
              have had := Option.some.inj (hforce _ h0)
              rw [had] at hw
              simp [adapterNew] at hw
            · exact wicVacant_congr (hother 0 hiz) (hep.2.2.2 hant j hj)
        split at h
        · have hvm : _ = vm2 := congrArg Prod.fst (Except.ok.inj h)
          refine main ((vm.slots.set i2 none).set i2 (some (adapterNew (pyStr v2))))
            (by rw [← hvm]; try rfl) ?_ ?_
          · intro i hii
            exact (getElem?_set_other _ hii).trans (getElem?_set_other _ hii)
          · intro b hb
            exact get?_set_forces hb
        · have hvm : _ = vm2 := congrArg Prod.fst (Except.ok.inj h)
          refine main (vm.slots.set i2 (some (adapterNew (pyStr v2))))
            (by rw [← hvm]; try rfl) ?_ ?_
          · intro i hii
            exact getElem?_set_other _ hii
          · intro b hb
            exact get?_set_forces hb
  · rw [if_neg hg1] at h
    by_cases hg2 : strStarts k2 "slot" = true ∧ v2 = PyVal.none
    · rw [if_pos hg2] at h
      cases hdig : lastCharDigit k2 with
      | error e => simp [hdig] at h
      | ok i2 =>
        simp only [hdig] at h
        rcases hslot : vm.slots[i2]? with _ | (_ | occ)
        · simp [hslot] at h
        ·
          simp only [hslot] at h
          have hvm : _ = vm2 := congrArg Prod.fst (Except.ok.inj h)
          rw [← hvm]
          exact hep
        ·
          simp only [hslot] at h
          have hvm : _ = vm2 := congrArg Prod.fst (Except.ok.inj h)
          rw [← hvm]
          show elifPost (vm.slots.set i2 none) k v
          refine ⟨?_, ?_, ?_, ?_⟩
          · intro hant i hi
            by_cases hii : i2 = i
            · subst hii
              exact ((hcomp.2.1 hant.1 hg2.1 i2 hi hdig)).elim
            · exact slotPost_congr (getElem?_set_other _ hii) (hep.1 hant i hi)
          · intro hant i hi
            by_cases hii : i2 = i
            · subst hii
              exact ((hcomp.2.1 hant.1 hg2.1 i2 hi hdig)).elim
            · exact slotVacant_congr (getElem?_set_other _ hii) (hep.2.1 hant i hi)
          · intro hant j hj
            by_cases hiz : i2 = 0
            · subst hiz
              intro ad w h0 hw
              cases get?_set_forces h0
            · exact wicPost_congr (getElem?_set_other _ hiz) (hep.2.2.1 hant j hj)
          · intro hant j hj
            by_cases hiz : i2 = 0
            · subst hiz
              intro ad w h0 hw
              cases get?_set_forces h0
            · exact wicVacant_congr (getElem?_set_other _ hiz) (hep.2.2.2 hant j hj)
    · rw [if_neg hg2] at h
      by_cases hg3 : strStarts k2 "wic" = true ∧ isWicVal v2 = true
      · rw [if_pos hg3] at h
        cases hdig : lastCharDigit k2 with
        | error e => simp [hdig] at h
        | ok j2 =>
          simp only [hdig] at h
          rcases hslot0 : vm.slots[0]? with _ | (_ | ad)
          · simp [hslot0] at h
          · simp [hslot0] at h
          · simp only [hslot0] at h
            have main : vm2.slots
                  = vm.slots.set 0 (some ⟨ad.typeName, ad.wics.set j2 (some (pyStr v2))⟩) →
                elifPost vm2.slots k v := by
              intro hns
              rw [hns]
              refine ⟨?_, ?_, ?_, ?_⟩
              · intro hant i hi
                by_cases hiz : 0 = i
                · subst hiz
                  intro occ2 hocc2
                  have hocc3 := Option.some.inj (get?_set_forces hocc2)
                  rw [hocc3]
                  exact hep.1 hant 0 hi ad hslot0
                · exact slotPost_congr (getElem?_set_other _ hiz) (hep.1 hant i hi)
              · intro hant i hi
                by_cases hiz : 0 = i
                · subst hiz
                  intro occ2 hocc2
                  exact hep.2.1 hant 0 hi ad hslot0
                · exact slotVacant_congr (getElem?_set_other _ hiz) (hep.2.1 hant i hi)
              · intro hant j hj
                intro ad2 w h0 hw
                have had2 := Option.some.inj (get?_set_forces h0)
                rw [had2] at hw
                by_cases hjj : j2 = j
                · subst hjj
                  exact ((hcomp.2.2 hant.1 hg3.1 j2 hj hdig)).elim
                · have hw2 : ad.wics[j]? = some (some w) := by
                    have hw3 : (ad.wics.set j2 (some (pyStr v2)))[j]? = some (some w) := hw
                    rw [getElem?_set_other _ hjj] at hw3
                    exact hw3
                  exact hep.2.2.1 hant j hj ad w hslot0 hw2
              · intro hant j hj
                intro ad2 w h0 hw
                have had2 := Option.some.inj (get?_set_forces h0)
                rw [had2] at hw
                by_cases hjj : j2 = j
                · subst hjj
                  exact ((hcomp.2.2 hant.1 hg3.1 j2 hj hdig)).elim
                · have hw2 : ad.wics[j]? = some (some w) := by
                    have hw3 : (ad.wics.set j2 (some (pyStr v2)))[j]? = some (some w) := hw
                    rw [getElem?_set_other _ hjj] at hw3
                    exact hw3
                  exact hep.2.2.2 hant j hj ad w hslot0 hw2
            rcases hbay : ad.wics[j2]? with _ | (_ | w)
            · simp [hbay] at h
            · simp only [hbay] at h
              have hvm : _ = vm2 := congrArg Prod.fst (Except.ok.inj h)
              exact main (by rw [← hvm]; try rfl)
            · simp only [hbay] at h
              split at h
              · have hvm : _ = vm2 := congrArg Prod.fst (Except.ok.inj h)
                exact main (by rw [← hvm]; try rfl)
              · have hvm : _ = vm2 := congrArg Prod.fst (Except.ok.inj h)
                exact main (by rw [← hvm]; try rfl)
      · rw [if_neg hg3] at h
        by_cases hg4 : strStarts k2 "wic" = true ∧ v2 = PyVal.none
        · rw [if_pos hg4] at h
          cases hdig : lastCharDigit k2 with
          | error e => simp [hdig] at h
          | ok j2 =>
            simp only [hdig] at h
            rcases hslot0 : vm.slots[0]? with _ | (_ | ad)
            · simp [hslot0] at h
            · simp [hslot0] at h
            · simp only [hslot0] at h
              by_cases hnil : ad.wics = []
              · rw [if_pos hnil] at h
                have hvm : _ = vm2 := congrArg Prod.fst (Except.ok.inj h)
                rw [← hvm]
                exact hep
              · rw [if_neg hnil] at h
                rcases hbay : ad.wics[j2]? with _ | (_ | w)
                · simp [hbay] at h
                · simp only [hbay] at h
                  have hvm : _ = vm2 := congrArg Prod.fst (Except.ok.inj h)
                  rw [← hvm]
                  exact hep
                · simp only [hbay] at h
                  have hvm : _ = vm2 := congrArg Prod.fst (Except.ok.inj h)
                  rw [← hvm]
                  show elifPost (vm.slots.set 0 (some ⟨ad.typeName, ad.wics.set j2 none⟩)) k v
                  refine ⟨?_, ?_, ?_, ?_⟩
                  · intro hant i hi
                    by_cases hiz : 0 = i
                    · subst hiz
                      intro occ2 hocc2
                      have hocc3 := Option.some.inj (get?_set_forces hocc2)
                      rw [hocc3]
                      exact hep.1 hant 0 hi ad hslot0
                    · exact slotPost_congr (getElem?_set_other _ hiz) (hep.1 hant i hi)
                  · intro hant i hi
                    by_cases hiz : 0 = i
                    · subst hiz
                      intro occ2 hocc2
                      exact hep.2.1 hant 0 hi ad hslot0
                    · exact slotVacant_congr (getElem?_set_other _ hiz) (hep.2.1 hant i hi)
                  · intro hant j hj
                    intro ad2 w2 h0 hw
                    have had2 := Option.some.inj (get?_set_forces h0)
                    rw [had2] at hw
                    by_cases hjj : j2 = j
                    · subst hjj
                      have hw3 : (ad.wics.set j2 (none : Option String))[j2]? = some (some w2) := hw
                      cases get?_set_forces hw3
                    · have hw2 : ad.wics[j]? = some (some w2) := by
                        have hw3 : (ad.wics.set j2 (none : Option String))[j]? = some (some w2) := hw
                        rw [getElem?_set_other _ hjj] at hw3
                        exact hw3
                      exact hep.2.2.1 hant j hj ad w2 hslot0 hw2
                  · intro hant j hj
                    intro ad2 w2 h0 hw
                    have had2 := Option.some.inj (get?_set_forces h0)
                    rw [had2] at hw
                    by_cases hjj : j2 = j
                    · subst hjj
                      have hw3 : (ad.wics.set j2 (none : Option String))[j2]? = some (some w2) := hw
                      cases get?_set_forces hw3
                    · have hw2 : ad.wics[j]? = some (some w2) := by
                        have hw3 : (ad.wics.set j2 (none : Option String))[j]? = some (some w2) := hw
                        rw [getElem?_set_other _ hjj] at hw3
                        exact hw3
                      exact hep.2.2.2 hant j hj ad w2 hslot0 hw2
        · rw [if_neg hg4] at h
          have hvm : _ = vm2 := congrArg Prod.fst (Except.ok.inj h)
          rw [← hvm]
          exact hep

theorem elifSlots_guard_free {vm : RVM} {name : String} {value : PyVal}
    (hs : strStarts name "slot" = false) (hw : strStarts name "wic" = false) :
    elifSlots vm name value = .ok (vm, []) := by
  unfold elifSlots
  rw [if_neg (by simp [hs]), if_neg (by simp [hs]), if_neg (by simp [hw]),
    if_neg (by simp [hw])]

theorem stepSettings_post {vm vm2 : RVM} {name : String} {value : PyVal} {evs : List RecEv}
    (h : stepSettings vm name value = .ok (vm2, evs)) : keyPost vm2 name value := by
  unfold stepSettings at h
  cases hattr : alookup vm.attrs name with
  | some cur =>
    simp only [hattr] at h
    split at h
    · split at h
      · have hvm : _ = vm2 := congrArg Prod.fst (Except.ok.inj h)
        constructor
        · intro cur2 hcur2 hne2
          rw [← hvm] at hcur2
          have : alookup (aset vm.attrs name value) name = some cur2 := hcur2
          rw [alookup_aset_self] at this
          cases Option.some.inj this
          exact absurd rfl hne2
        · intro hnone
          rw [← hvm] at hnone
          have : alookup (aset vm.attrs name value) name = none := hnone
          rw [alookup_aset_self] at this
          cases this
      · have hvm : _ = vm2 := congrArg Prod.fst (Except.ok.inj h)
        constructor
        · intro cur2 hcur2 hne2
          rw [← hvm]
          next hset => exact hset
        · intro hnone
          rw [← hvm] at hnone
          have : alookup vm.attrs name = none := hnone
          rw [hattr] at this
          cases this
    · next hne =>
      have hats := elifSlots_attrs_setters h
      have hpost := elifSlots_post h
      constructor
      · intro cur2 hcur2 hne2
        rw [hats.1, hattr] at hcur2
        cases Option.some.inj hcur2
        push_neg at hne
        exact absurd hne hne2
      · intro _
        exact hpost
  | none =>
    simp only [hattr] at h
    have hats := elifSlots_attrs_setters h
    have hpost := elifSlots_post h
    constructor
    · intro cur2 hcur2 hne2
      rw [hats.1, hattr] at hcur2
      cases hcur2
    · intro _
      exact hpost

theorem alookup_aset_isSome {α : Type} (l : List (String × α)) (kk x : String) (vv : α)
    (hk : (alookup l kk).isSome = true) :
    (alookup (aset l kk vv) x).isSome = (alookup l x).isSome := by
  by_cases hx : x = kk
  · subst hx
    rw [alookup_aset_self]
    simp [hk]
  · rw [alookup_aset_ne _ _ _ _ hx]

theorem stepSettings_shape {vm vm2 : RVM} {name : String} {value : PyVal} {evs : List RecEv}
    (h : stepSettings vm name value = .ok (vm2, evs)) :
    (∀ x, (alookup vm2.attrs x).isSome = (alookup vm.attrs x).isSome)
      ∧ vm2.setters = vm.setters := by
  unfold stepSettings at h
  cases hattr : alookup vm.attrs name with
  | some cur =>
    simp only [hattr] at h
    split at h
    · split at h
      · have hvm : _ = vm2 := congrArg Prod.fst (Except.ok.inj h)
        rw [← hvm]
        exact ⟨fun x => alookup_aset_isSome vm.attrs name x value (by rw [hattr]; rfl), rfl⟩
      · have hvm : _ = vm2 := congrArg Prod.fst (Except.ok.inj h)
        rw [← hvm]
        exact ⟨fun x => rfl, rfl⟩
    · have hats := elifSlots_attrs_setters h
      rw [hats.1, hats.2]
      exact ⟨fun x => rfl, rfl⟩
  | none =>
    simp only [hattr] at h
    have hats := elifSlots_attrs_setters h
    rw [hats.1, hats.2]
    exact ⟨fun x => rfl, rfl⟩

theorem stepSettings_preserves_keyPost {vm vm2 : RVM} {k2 : String} {v2 : PyVal}
    {evs : List RecEv}
    (h : stepSettings vm k2 v2 = .ok (vm2, evs))
    {k : String} {v : PyVal}
    (hcomp : keysCompat (k, v) (k2, v2))
    (hkp : keyPost vm k v) : keyPost vm2 k v := by
  have hkne : k ≠ k2 := hcomp.1
  unfold stepSettings at h
  cases hattr : alookup vm.attrs k2 with
  | some cur =>
    simp only [hattr] at h
    split at h
    · split at h
      · have hvm : _ = vm2 := congrArg Prod.fst (Except.ok.inj h)
        constructor
        · intro cur2 hcur2 hne2
          rw [← hvm] at hcur2
          have : alookup (aset vm.attrs k2 v2) k = some cur2 := hcur2
          rw [alookup_aset_ne _ _ _ _ hkne] at this
          have hnotin := hkp.1 cur2 this hne2
          rw [← hvm]
          exact hnotin
        · intro hnone
          rw [← hvm] at hnone
          have : alookup (aset vm.attrs k2 v2) k = none := hnone
          rw [alookup_aset_ne _ _ _ _ hkne] at this
          have hep := hkp.2 this
          rw [← hvm]
          exact hep
      · have hvm : _ = vm2 := congrArg Prod.fst (Except.ok.inj h)
        rw [← hvm]
        exact hkp
    · have hats := elifSlots_attrs_setters h
      constructor
      · intro cur2 hcur2 hne2
        rw [hats.1] at hcur2
        rw [hats.2]
        exact hkp.1 cur2 hcur2 hne2
      · intro hnone
        rw [hats.1] at hnone
        exact elifSlots_preserves_elifPost h hcomp (hkp.2 hnone)
  | none =>
    simp only [hattr] at h
    have hats := elifSlots_attrs_setters h
    constructor
    · intro cur2 hcur2 hne2
      rw [hats.1] at hcur2
      rw [hats.2]
      exact hkp.1 cur2 hcur2 hne2
    · intro hnone
      rw [hats.1] at hnone
      exact elifSlots_preserves_elifPost h hcomp (hkp.2 hnone)

theorem keysCompat_symm {a b : String × PyVal} (h : keysCompat a b) : keysCompat b a :=
  ⟨h.1.symm, fun hb ha i hbi hai => h.2.1 ha hb i hai hbi,
   fun hb ha i hbi hai => h.2.2 ha hb i hai hbi⟩

theorem elifSlots_clean {vm vm2 : RVM} {name : String} {value : PyVal} {evs : List RecEv}
    (hep : elifPost vm.slots name value)
    (h : elifSlots vm name value = .ok (vm2, evs)) :
    evs.all isRebindEv = true := by
  unfold elifSlots at h
  by_cases hg1 : strStarts name "slot" = true ∧ isAdapterVal value = true
  · rw [if_pos hg1] at h
    cases hdig : lastCharDigit name with
    | error e => simp [hdig] at h
    | ok i2 =>
      simp only [hdig] at h
      rcases hslot : vm.slots[i2]? with _ | (_ | occ)
      · simp [hslot] at h
      · simp only [hslot] at h
        have hevs : _ = evs := congrArg Prod.snd (Except.ok.inj h)
        rw [← hevs]
        rfl
      · simp only [hslot] at h
        split at h
        · next hty =>
          exact absurd (hep.1 hg1 i2 hdig occ hslot) hty
        · have hevs : _ = evs := congrArg Prod.snd (Except.ok.inj h)
          rw [← hevs]
          rfl
  · rw [if_neg hg1] at h
    by_cases hg2 : strStarts name "slot" = true ∧ value = PyVal.none
    · rw [if_pos hg2] at h
      cases hdig : lastCharDigit name with
      | error e => simp [hdig] at h
      | ok i2 =>
        simp only [hdig] at h
        rcases hslot : vm.slots[i2]? with _ | (_ | occ)
        · simp [hslot] at h
        · simp only [hslot] at h
          have hevs : _ = evs := congrArg Prod.snd (Except.ok.inj h)
          rw [← hevs]
          rfl
        · exact (hep.2.1 hg2 i2 hdig occ hslot).elim
    · rw [if_neg hg2] at h
      by_cases hg3 : strStarts name "wic" = true ∧ isWicVal value = true
      · rw [if_pos hg3] at h
        cases hdig : lastCharDigit name with
        | error e => simp [hdig] at h
        | ok j2 =>
          simp only [hdig] at h
          rcases hslot0 : vm.slots[0]? with _ | (_ | ad)
          · simp [hslot0] at h
          · simp [hslot0] at h
          · simp only [hslot0] at h
            rcases hbay : ad.wics[j2]? with _ | (_ | w)
            · simp [hbay] at h
            · simp only [hbay] at h
              have hevs : _ = evs := congrArg Prod.snd (Except.ok.inj h)
              rw [← hevs]
              rfl
            · simp only [hbay] at h
              split at h
              · next hwne =>
                exact absurd (hep.2.2.1 hg3 j2 hdig ad w hslot0 hbay) hwne
              · have hevs : _ = evs := congrArg Prod.snd (Except.ok.inj h)
                rw [← hevs]
                rfl
      · rw [if_neg hg3] at h
        by_cases hg4 : strStarts name "wic" = true ∧ value = PyVal.none
        · rw [if_pos hg4] at h
          cases hdig : lastCharDigit name with
          | error e => simp [hdig] at h
          | ok j2 =>
            simp only [hdig] at h
            rcases hslot0 : vm.slots[0]? with _ | (_ | ad)
            · simp [hslot0] at h
            · simp [hslot0] at h
            · simp only [hslot0] at h
              by_cases hnil : ad.wics = []
              · rw [if_pos hnil] at h
                have hevs : _ = evs := congrArg Prod.snd (Except.ok.inj h)
                rw [← hevs]
                rfl
              · rw [if_neg hnil] at h
                rcases hbay : ad.wics[j2]? with _ | (_ | w)
                · simp [hbay] at h
                · simp only [hbay] at h
                  have hevs : _ = evs := congrArg Prod.snd (Except.ok.inj h)
                  rw [← hevs]
                  rfl
                · exact (hep.2.2.2 hg4 j2 hdig ad w hslot0 hbay).elim
        · rw [if_neg hg4] at h
          have hevs : _ = evs := congrArg Prod.snd (Except.ok.inj h)
          rw [← hevs]
          rfl

theorem stepSettings_clean {vm vm2 : RVM} {name : String} {value : PyVal} {evs : List RecEv}
    (hkp : keyPost vm name value)
    (hcoll : (strStarts name "slot" = true ∨ strStarts name "wic" = true) →
      alookup vm.attrs name = none)
    (h : stepSettings vm name value = .ok (vm2, evs)) :
    evs.all isRebindEv = true := by
  unfold stepSettings at h
  cases hattr : alookup vm.attrs name with
  | some cur =>
    simp only [hattr] at h
    split at h
    · next hne =>
      split at h
      · next hset =>
        exact absurd hset (hkp.1 cur hattr hne)
      · have hevs : _ = evs := congrArg Prod.snd (Except.ok.inj h)
        rw [← hevs]
        rfl
    · have hs : strStarts name "slot" = false := by
        by_contra hc
        simp only [Bool.not_eq_false] at hc
        rw [hcoll (Or.inl hc)] at hattr
        cases hattr
      have hw : strStarts name "wic" = false := by
        by_contra hc
        simp only [Bool.not_eq_false] at hc
        rw [hcoll (Or.inr hc)] at hattr
        cases hattr
      rw [elifSlots_guard_free hs hw] at h
      have hevs : _ = evs := congrArg Prod.snd (Except.ok.inj h)
      rw [← hevs]
      rfl
  | none =>
    simp only [hattr] at h
    exact elifSlots_clean (hkp.2 hattr) h

theorem update_preserves_keyPost {vm vm2 : RVM} {l : List (String × PyVal)} {evs : List RecEv}
    (h : update_vm_settings vm l = .ok (vm2, evs))
    {k : String} {v : PyVal}
    (hcomp : ∀ b ∈ l, keysCompat (k, v) b)
    (hkp : keyPost vm k v) : keyPost vm2 k v := by
  induction l generalizing vm vm2 evs with
  | nil =>
    simp only [update_vm_settings] at h
    have hvm : _ = vm2 := congrArg Prod.fst (Except.ok.inj h)
    rw [← hvm]
    exact hkp
  | cons hd rest ih =>
    obtain ⟨k2, v2⟩ := hd
    simp only [update_vm_settings] at h
    cases hstep : stepSettings vm k2 v2 with
    | error e => simp [hstep] at h
    | ok r1 =>
      obtain ⟨vma, evsa⟩ := r1
      simp only [hstep] at h
      cases hrest : update_vm_settings vma rest with
      | error e => simp [hstep, hrest] at h
      | ok r2 =>
        obtain ⟨vmb, evsb⟩ := r2
        simp only [hrest] at h
        have hvm : _ = vm2 := congrArg Prod.fst (Except.ok.inj h)
        have hkp1 := stepSettings_preserves_keyPost hstep (hcomp (k2, v2) (by simp)) hkp
        have hkp2 := ih hrest (fun b hb => hcomp b (by simp [hb])) hkp1
        rw [← hvm]
        exact hkp2

theorem update_post {vm vm2 : RVM} {l : List (String × PyVal)} {evs : List RecEv}
    (h : update_vm_settings vm l = .ok (vm2, evs))
    (hpw : l.Pairwise keysCompat) :
    ∀ b ∈ l, keyPost vm2 b.1 b.2 := by
  induction l generalizing vm vm2 evs with
  | nil => intro b hb; cases hb
  | cons hd rest ih =>
    obtain ⟨k2, v2⟩ := hd
    simp only [update_vm_settings] at h
    cases hstep : stepSettings vm k2 v2 with
    | error e => simp [hstep] at h
    | ok r1 =>
      obtain ⟨vma, evsa⟩ := r1
      simp only [hstep] at h
      cases hrest : update_vm_settings vma rest with
      | error e => simp [hstep, hrest] at h
      | ok r2 =>
        obtain ⟨vmb, evsb⟩ := r2
        simp only [hrest] at h
        have hvm : _ = vm2 := congrArg Prod.fst (Except.ok.inj h)
        rw [List.pairwise_cons] at hpw
        intro b hb
        rcases List.mem_cons.mp hb with hb1 | hb2
        · subst hb1
          have hkpa := stepSettings_post hstep
          have hkpb := update_preserves_keyPost hrest (fun b2 hb2 => hpw.1 b2 hb2) hkpa
          rw [← hvm]
          exact hkpb
        · have hkpb := ih hrest hpw.2 b hb2
          rw [← hvm]
          exact hkpb

theorem update_shape {vm vm2 : RVM} {l : List (String × PyVal)} {evs : List RecEv}
    (h : update_vm_settings vm l = .ok (vm2, evs)) :
    ∀ x, (alookup vm2.attrs x).isSome = (alookup vm.attrs x).isSome := by
  induction l generalizing vm vm2 evs with
  | nil =>
    simp only [update_vm_settings] at h
    have hvm : _ = vm2 := congrArg Prod.fst (Except.ok.inj h)
    rw [← hvm]
    exact fun x => rfl
  | cons hd rest ih =>
    obtain ⟨k2, v2⟩ := hd
    simp only [update_vm_settings] at h
    cases hstep : stepSettings vm k2 v2 with
    | error e => simp [hstep] at h
    | ok r1 =>
      obtain ⟨vma, evsa⟩ := r1
      simp only [hstep] at h
      cases hrest : update_vm_settings vma rest with
      | error e => simp [hstep, hrest] at h
      | ok r2 =>
        obtain ⟨vmb, evsb⟩ := r2
        simp only [hrest] at h
        have hvm : _ = vm2 := congrArg Prod.fst (Except.ok.inj h)
        intro x
        rw [← hvm]
        exact (ih hrest x).trans ((stepSettings_shape hstep).1 x)

theorem update_clean {vm vm2 : RVM} {l : List (String × PyVal)} {evs : List RecEv}
    (h : update_vm_settings vm l = .ok (vm2, evs))
    (hpost : ∀ b ∈ l, keyPost vm b.1 b.2)
    (hcoll : ∀ b ∈ l, (strStarts b.1 "slot" = true ∨ strStarts b.1 "wic" = true) →
      alookup vm.attrs b.1 = none)
    (hpw : l.Pairwise keysCompat) :
    evs.all isRebindEv = true := by
  induction l generalizing vm vm2 evs with
  | nil =>
    simp only [update_vm_settings] at h
    have hevs : _ = evs := congrArg Prod.snd (Except.ok.inj h)
    rw [← hevs]
    rfl
  | cons hd rest ih =>
    obtain ⟨k2, v2⟩ := hd
    simp only [update_vm_settings] at h
    cases hstep : stepSettings vm k2 v2 with
    | error e => simp [hstep] at h
    | ok r1 =>
      obtain ⟨vma, evsa⟩ := r1
      simp only [hstep] at h
      cases hrest : update_vm_settings vma rest with
      | error e => simp [hstep, hrest] at h
      | ok r2 =>
        obtain ⟨vmb, evsb⟩ := r2
        simp only [hrest] at h
        have hevs : _ = evs := congrArg Prod.snd (Except.ok.inj h)
        rw [List.pairwise_cons] at hpw
        have hclean1 : evsa.all isRebindEv = true :=
          stepSettings_clean (hpost (k2, v2) (by simp)) (hcoll (k2, v2) (by simp)) hstep
        have hshape := stepSettings_shape hstep
        have hpost2 : ∀ b ∈ rest, keyPost vma b.1 b.2 := fun b hb =>
          stepSettings_preserves_keyPost hstep (keysCompat_symm (hpw.1 b hb))
            (hpost b (by simp [hb]))
        have hcoll2 : ∀ b ∈ rest,
            (strStarts b.1 "slot" = true ∨ strStarts b.1 "wic" = true) →
            alookup vma.attrs b.1 = none := by
          intro b hb hsw
          have h0 := hcoll b (by simp [hb]) hsw
          have hx := hshape.1 b.1
          rw [h0] at hx
          cases hcase : alookup vma.attrs b.1 with
          | none => rfl
          | some vv =>
            rw [hcase] at hx
            simp at hx
        have hclean2 := ih hrest hpost2 hcoll2 hpw.2
        rw [← hevs, List.all_append, hclean1, hclean2]
        rfl

/-- C2 (amended): applying the same settings mapping a second time to the
already-converged device issues NO `slot_remove_binding`, `uninstall_wic` or
attribute-setter calls — but it does re-issue the unconditional
`slot_add_binding` / `install_wic` calls, so every event of the second
application is an add/install.  Hypotheses mirror what a Python settings dict
and a real router guarantee: distinct keys, distinct bay digits for distinct
slot/wic keys, and no plain attribute shadowing a slot/wic key. -/
theorem C2_second_application_only_rebinds
    (vm vm1 vm2 : RVM) (settings : List (String × PyVal)) (evs1 evs2 : List RecEv)
    (hpw : settings.Pairwise keysCompat)
    (hcoll : ∀ b ∈ settings,
      (strStarts b.1 "slot" = true ∨ strStarts b.1 "wic" = true) →
      alookup vm.attrs b.1 = none)
    (h1 : update_vm_settings vm settings = .ok (vm1, evs1))
    (h2 : update_vm_settings vm1 settings = .ok (vm2, evs2)) :
    evs2.all isRebindEv = true := by
  have hpost := update_post h1 hpw
  have hshape := update_shape h1
  have hcoll1 : ∀ b ∈ settings,
      (strStarts b.1 "slot" = true ∨ strStarts b.1 "wic" = true) →
      alookup vm1.attrs b.1 = none := by
    intro b hb hsw
    have h0 := hcoll b hb hsw
    have hx := hshape b.1
    rw [h0] at hx
    cases hcase : alookup vm1.attrs b.1 with
    | none => rfl
    | some vv =>
      rw [hcase] at hx
      simp at hx
  exact update_clean h2 hpost hcoll1 hpw

/-- C2 (amended) witness: the converged single-slot assignment re-emits
exactly one `slot_add_binding` and nothing else. -/
theorem C2_second_application_only_rebinds_witness :
    ([RecEv.slotAdd 1 "NM-1FE-TX"].all isRebindEv = true) :=
  C2_second_application_only_rebinds ⟨[], [], [none, none]⟩
    ⟨[], [], [none, some ⟨"NM-1FE-TX", []⟩]⟩ ⟨[], [], [none, some ⟨"NM-1FE-TX", []⟩]⟩
    [("slot1", PyVal.str "NM-1FE-TX")]
    [RecEv.slotAdd 1 "NM-1FE-TX"] [RecEv.slotAdd 1 "NM-1FE-TX"]
    (by simp) (fun b hb hsw => rfl) (by decide) (by decide)
